import Mathlib

/-!
# Effect functions of RSiena: `AbsDiffFunction` and `MixedThreeCyclesFunction`

A shallow embedding of

* `src/model/effects/generic/AbsDiffFunction.cpp`
* `src/model/effects/generic/MixedThreeCyclesFunction.cpp`

Conventions of the embedding.

* A C++ `double` is an element of an arbitrary linearly ordered field `α`
  (exact arithmetic; `ℝ` and `ℚ` are instances).  Rounding, infinities and
  NaN are not modelled.
* A C++ `int` is an `Int`.  The only integer arithmetic in the two files is
  `get(k) - 1` on a table count and `m() - 1` on an actor count; neither
  can overflow on the values these collaborators hold.
* A thrown C++ exception is the `error` branch of `Except Exception`.
* Collaborators whose code is not part of the two files (`Network`,
  the configuration tables, `SqrtTable`, `Data`, the base classes) enter
  as values: a table is its `get` function, a network is its `inTies`
  enumeration, the square-root table is its `sqrt` function.
-/

namespace siena

/-! ## Collaborators -/

/-- C++ exceptions that can leave the functions embedded here.  `logic_error`
is `std::logic_error` with its message; `failure` stands for any other
exception a collaborator may raise. -/
inductive Exception where
  | logic_error (what : String)
  | failure (what : String)
  deriving DecidableEq, Repr

/-- A configuration table, seen through `get(actor)`: the count stored for
each actor (as of the ego the cache is currently built for). -/
abbrev ConfigurationTable := Int → Int

/-- A network, seen through `inTies(alter)`: the actors that
`IncidentTieIterator` yields, in iteration order.  A network holds at most
one tie per ordered pair of actors, so no actor is yielded twice. -/
structure Network where
  inTies : Int → List Int
  nodup : ∀ alter, (inTies alter).Nodup

/-- The network without ties. -/
def Network.empty : Network := ⟨fun _ => [], fun _ => List.nodup_nil⟩

/-- The process-wide `SqrtTable`, seen through `sqrt(int)`.  The table is a
parameter: its code is not in the two files.  It either returns a `double`
or raises; the memo it keeps does not affect what it returns. -/
abbrev SqrtTable (α : Type) := Int → Except Exception α

/-- `NetworkLongitudinalData`, seen through the three descriptors that
`initialize` reads. -/
structure NetworkLongitudinalData (α : Type) where
  averageSquaredInDegree : α
  averageInDegree : α
  m : Int

/-- `Data`, seen through `pNetworkData(name)`: `none` is the null pointer. -/
abbrev Data (α : Type) := String → Option (NetworkLongitudinalData α)

/-! ## `AbsDiffFunction` -/

/-- An `AlterFunction` operand, seen through `double value(int alter)` (for
the ego it has been pre-processed for). -/
structure AlterFunction (α : Type) where
  value : Int → α

/-- Fields of `AbsDiffFunction`: the two owned operands. -/
structure AbsDiffFunction (α : Type) where
  lpFirstFunction : AlterFunction α
  lpSecondFunction : AlterFunction α

/-- Constructor `AbsDiffFunction::AbsDiffFunction(pFirstFunction,
pSecondFunction)` (a declaration named like its own namespace would shadow
the type, hence `new`). -/
def AbsDiffFunction.new {α : Type}
    (pFirstFunction pSecondFunction : AlterFunction α) : AbsDiffFunction α :=
  { lpFirstFunction := pFirstFunction, lpSecondFunction := pSecondFunction }

/-- Method `AbsDiffFunction::value(alter)`: `std::abs` of the difference of
the operands.  The argument is a `double`, so `std::abs` is the
floating-point overload and returns the absolute value as a `double`. -/
def AbsDiffFunction.value {α : Type} [LinearOrderedField α]
    (f : AbsDiffFunction α) (alter : Int) : α :=
  abs (f.lpFirstFunction.value alter - f.lpSecondFunction.value alter)

/-! ## `MixedThreeCyclesFunction` -/

/-- Fields that the constructor of `MixedThreeCyclesFunction` sets.  (The three
table pointers are null and `lavInTwoStar` is unset until `initialize`; they
live in `InitializedFunction`.) -/
structure MixedThreeCyclesFunction (α : Type) where
  firstNetworkName : String
  secondNetworkName : String
  lsqrtTable : SqrtTable α
  lroot : Bool
  lcenter : Bool
  lvariableName : String
  ltype : Int
  lopposite : Bool

/-- Constructor `MixedThreeCyclesFunction::MixedThreeCyclesFunction`.
`sqrtTableInstance` is what `SqrtTable::instance()` returns. -/
def MixedThreeCyclesFunction.new {α : Type}
    [LinearOrderedField α] (sqrtTableInstance : SqrtTable α)
    (firstNetworkName secondNetworkName : String) (parameter : α)
    (type : Int) (opposite : Bool) : MixedThreeCyclesFunction α :=
  { firstNetworkName := firstNetworkName
    secondNetworkName := secondNetworkName
    lsqrtTable := sqrtTableInstance
    lroot := decide (parameter = 2) || decide (parameter = 4)
    lcenter := decide (parameter ≥ 3)
    lvariableName := firstNetworkName
    ltype := type
    lopposite := opposite }

/-- What the base class `MixedNetworkAlterFunction` holds once it is
initialized and pre-processed: `ego()`, `pFirstNetwork()`,
`pSecondNetwork()`, and the in-star tables of `pFirstNetworkCache()`,
`pTwoNetworkCache()` and `pTwoNetworkCacheReversed()`. -/
structure MixedNetworkAlterFunction where
  ego : Int
  pFirstNetwork : Network
  pSecondNetwork : Network
  firstNetworkCacheInStarTable : ConfigurationTable
  twoNetworkCacheInStarTable : ConfigurationTable
  twoNetworkCacheReversedInStarTable : ConfigurationTable

/-- A `MixedThreeCyclesFunction` after `initialize`: the constructor's
fields, the base-class part, the three table handles and the centering
constant `lavInTwoStar`. -/
structure InitializedFunction (α : Type) extends
    MixedThreeCyclesFunction α, MixedNetworkAlterFunction where
  lpFirstInStarTable : ConfigurationTable
  lpFirstSecondInStarTable : ConfigurationTable
  lpSecondFirstInStarTable : ConfigurationTable
  lavInTwoStar : α

/-- Method `MixedThreeCyclesFunction::initialize`.  `base` is the outcome of
`MixedNetworkAlterFunction::initialize(pData, pState, period, pCache)` and
`sqrt` is `sqrt` of `<cmath>` on `double`s. -/
def MixedThreeCyclesFunction.initialize {α : Type} [LinearOrderedField α]
    (f : MixedThreeCyclesFunction α) (sqrt : α → α) (pData : Data α)
    (base : Except Exception MixedNetworkAlterFunction) :
    Except Exception (InitializedFunction α) :=
  match base with
  | .error e => .error e
  | .ok b =>
    match pData f.lvariableName with
    | none =>
      .error (.logic_error ("Network data for " ++ f.lvariableName ++ " expected."))
    | some pNetworkData =>
      .ok
        { toMixedThreeCyclesFunction := f
          toMixedNetworkAlterFunction := b
          lpFirstInStarTable := b.firstNetworkCacheInStarTable
          lpFirstSecondInStarTable := b.twoNetworkCacheInStarTable
          lpSecondFirstInStarTable := b.twoNetworkCacheReversedInStarTable
          lavInTwoStar :=
            if f.lcenter then
              let lavInTwoStar :=
                (pNetworkData.averageSquaredInDegree - pNetworkData.averageInDegree)
                  / (((pNetworkData.m - 1 : Int) : α))
              if f.lroot then sqrt lavInTwoStar else lavInTwoStar
            else 0 }

/-- The loop of the `!lopposite` block of `value`, over the remaining
in-ties of `alter` in the second network, with `statistic` the running sum. -/
def InitializedFunction.loopSecondNetwork {α : Type} [LinearOrderedField α]
    (f : InitializedFunction α) : List Int → α → Except Exception α
  | [], statistic => .ok statistic
  | actor :: rest, statistic =>
    if actor ≠ f.ego then
      if f.lroot then
        match f.lsqrtTable (f.lpFirstInStarTable actor) with
        | .error e => .error e
        | .ok r => f.loopSecondNetwork rest (statistic + (r - f.lavInTwoStar))
      else
        f.loopSecondNetwork rest
          (statistic + (((f.lpFirstInStarTable actor : Int) : α) - f.lavInTwoStar))
    else f.loopSecondNetwork rest statistic

/-- The loop of the `lopposite` block of `value`, over the remaining
in-ties of `alter` in the first network.  The two `if (ltype == ...)`
statements run one after the other, as in the source. -/
def InitializedFunction.loopFirstNetwork {α : Type} [LinearOrderedField α]
    (f : InitializedFunction α) : List Int → α → Except Exception α
  | [], statistic => .ok statistic
  | actor :: rest, statistic =>
    if actor ≠ f.ego then
      if f.lroot then
        match (if f.ltype = 2 then
            match f.lsqrtTable (f.lpFirstSecondInStarTable actor) with
            | .error e => .error e
            | .ok r => .ok (statistic + r)
          else .ok statistic : Except Exception α) with
        | .error e => .error e
        | .ok statistic2 =>
          match (if f.ltype = 1 then
              match f.lsqrtTable (f.lpSecondFirstInStarTable actor - 1) with
              | .error e => .error e
              | .ok r => .ok (statistic2 + r)
            else .ok statistic2 : Except Exception α) with
          | .error e => .error e
          | .ok statistic1 => f.loopFirstNetwork rest statistic1
      else
        let statistic2 :=
          if f.ltype = 2 then
            statistic + ((f.lpFirstSecondInStarTable actor : Int) : α)
          else statistic
        let statistic1 :=
          if f.ltype = 1 then
            statistic2 + ((f.lpSecondFirstInStarTable actor - 1 : Int) : α)
          else statistic2
        f.loopFirstNetwork rest statistic1
    else f.loopFirstNetwork rest statistic

/-- Method `MixedThreeCyclesFunction::value(alter)`: `statistic` starts at 0,
the `!lopposite` block runs, then the `lopposite` block, and `statistic` is
returned. -/
def InitializedFunction.value {α : Type} [LinearOrderedField α]
    (f : InitializedFunction α) (alter : Int) : Except Exception α :=
  match (if !f.lopposite then
      f.loopSecondNetwork (f.pSecondNetwork.inTies alter) 0
    else .ok 0 : Except Exception α) with
  | .error e => .error e
  | .ok statistic =>
    if f.lopposite then
      f.loopFirstNetwork (f.pFirstNetwork.inTies alter) statistic
    else .ok statistic

/-! ## Lifecycle of `AbsDiffFunction`

The operands of an `AbsDiffFunction` are objects with a state of their own.
Here they are seen through their virtual methods, as functions on that
state; the base class `AlterFunction` is seen the same way. -/

/-- An `AlterFunction` object, seen through its virtual methods on the
object's own state `σ`.  `γ` is the type of the argument tuple
`(pData, pState, period, pCache)`.  `initialize` may raise, and returns the
state it leaves behind in either case; `value` is not `const` and may change
the state.  (`initialize` is a keyword of Lean, hence the prefix `on`.) -/
structure AlterFunctionObject (α σ γ : Type) where
  onInitialize : γ → σ → σ × Except Exception Unit
  onPreprocessEgo : Int → σ → σ
  onValue : Int → σ → σ × α

/-- The base-class part `AlterFunction` of an `AbsDiffFunction`, seen through
`AlterFunction::initialize` and `AlterFunction::preprocessEgo` on its state
`σ`. -/
structure AlterFunctionBase (σ γ : Type) where
  onInitialize : γ → σ → σ × Except Exception Unit
  onPreprocessEgo : Int → σ → σ

/-- A call that a lifecycle method of `AbsDiffFunction` makes, on the base
class or on one of the two operands, with its arguments. -/
inductive Call (γ : Type) where
  | initializeAlterFunction (args : γ)
  | initializeFirst (args : γ)
  | initializeSecond (args : γ)
  | preprocessEgoAlterFunction (ego : Int)
  | preprocessEgoFirst (ego : Int)
  | preprocessEgoSecond (ego : Int)
  deriving DecidableEq, Repr

/-- An `AbsDiffFunction` with its base class and its operands as objects. -/
structure AbsDiffFunctionObject (α σ₀ σ₁ σ₂ γ : Type) where
  alterFunction : AlterFunctionBase σ₀ γ
  lpFirstFunction : AlterFunctionObject α σ₁ γ
  lpSecondFunction : AlterFunctionObject α σ₂ γ

/-- The state of an `AbsDiffFunction` and of what it owns: its base-class
part, `*lpFirstFunction` and `*lpSecondFunction`. -/
structure AbsDiffFunctionState (σ₀ σ₁ σ₂ : Type) where
  alterFunction : σ₀
  firstFunction : σ₁
  secondFunction : σ₂

/-- Method `AbsDiffFunction::initialize`: the base-class step, then the first
operand, then the second, each with the arguments received; an exception
ends the method.  Returns the state left behind, the calls made in order,
and the outcome. -/
def AbsDiffFunctionObject.initialize {α σ₀ σ₁ σ₂ γ : Type}
    (f : AbsDiffFunctionObject α σ₀ σ₁ σ₂ γ) (args : γ)
    (s : AbsDiffFunctionState σ₀ σ₁ σ₂) :
    AbsDiffFunctionState σ₀ σ₁ σ₂ × List (Call γ) × Except Exception Unit :=
  match f.alterFunction.onInitialize args s.alterFunction with
  | (s0, .error e) =>
    ({ s with alterFunction := s0 }, [Call.initializeAlterFunction args], .error e)
  | (s0, .ok _) =>
    match f.lpFirstFunction.onInitialize args s.firstFunction with
    | (s1, .error e) =>
      ({ s with alterFunction := s0, firstFunction := s1 },
        [Call.initializeAlterFunction args] ++ [Call.initializeFirst args], .error e)
    | (s1, .ok _) =>
      match f.lpSecondFunction.onInitialize args s.secondFunction with
      | (s2, outcome) =>
        ({ alterFunction := s0, firstFunction := s1, secondFunction := s2 },
          [Call.initializeAlterFunction args] ++ [Call.initializeFirst args]
            ++ [Call.initializeSecond args], outcome)

/-- Method `AbsDiffFunction::preprocessEgo`: the base-class step, then the
first operand, then the second, each with the ego received.  Returns the new
state and the calls made in order. -/
def AbsDiffFunctionObject.preprocessEgo {α σ₀ σ₁ σ₂ γ : Type}
    (f : AbsDiffFunctionObject α σ₀ σ₁ σ₂ γ) (ego : Int)
    (s : AbsDiffFunctionState σ₀ σ₁ σ₂) :
    AbsDiffFunctionState σ₀ σ₁ σ₂ × List (Call γ) :=
  let s0 := f.alterFunction.onPreprocessEgo ego s.alterFunction
  let s1 := f.lpFirstFunction.onPreprocessEgo ego s.firstFunction
  let s2 := f.lpSecondFunction.onPreprocessEgo ego s.secondFunction
  ({ alterFunction := s0, firstFunction := s1, secondFunction := s2 },
    [Call.preprocessEgoAlterFunction ego] ++ [Call.preprocessEgoFirst ego]
      ++ [Call.preprocessEgoSecond ego])

/-- Method `AbsDiffFunction::value` on objects: `value(alter)` of the first
operand and of the second (each on its own state), and `std::abs` of the
difference.  Returns the state left behind and the number. -/
def AbsDiffFunctionObject.value {α σ₀ σ₁ σ₂ γ : Type} [LinearOrderedField α]
    (f : AbsDiffFunctionObject α σ₀ σ₁ σ₂ γ) (alter : Int)
    (s : AbsDiffFunctionState σ₀ σ₁ σ₂) : AbsDiffFunctionState σ₀ σ₁ σ₂ × α :=
  let first := f.lpFirstFunction.onValue alter s.firstFunction
  let second := f.lpSecondFunction.onValue alter s.secondFunction
  ({ s with firstFunction := first.1, secondFunction := second.1 },
    abs (first.2 - second.2))

/-- The pointer fields of an `AbsDiffFunction`: addresses in the free store,
0 being the null pointer. -/
structure AbsDiffFunctionPointers where
  lpFirstFunction : Nat
  lpSecondFunction : Nat

/-- The statement `delete p` on the free store, seen as the set of addresses
of live objects: nothing happens for the null pointer, the live object at
`p` is released, and the behaviour is undefined (`none`) when there is no
live object at `p`, for instance because it was released before. -/
def delete (p : Nat) (store : Finset Nat) : Option (Finset Nat) :=
  if p = 0 then some store
  else if p ∈ store then some (store.erase p)
  else none

/-- Destructor `AbsDiffFunction::~AbsDiffFunction`: `delete lpFirstFunction`,
then `delete lpSecondFunction`.  Returns the free store left behind and the
pointers handed to `delete`, in order. -/
def AbsDiffFunctionPointers.destructor (f : AbsDiffFunctionPointers)
    (store : Finset Nat) : Option (Finset Nat) × List Nat :=
  match delete f.lpFirstFunction store with
  | none => (none, [f.lpFirstFunction])
  | some store1 =>
    (delete f.lpSecondFunction store1, [f.lpFirstFunction] ++ [f.lpSecondFunction])

/-! ## The memo of the square-root table -/

/-- Modelled from the spec: `SqrtTable::sqrt`, whose code is not among the
source files.  By §4.4 it "returns the cached square root, computing and
storing it on first request for that `n`".  `memo` is the cache and `compute`
the computation of a root that is not cached yet (`lsqrtTable` of the
function); a computation that raises stores nothing. -/
def SqrtTable.sqrt {α : Type} (compute : SqrtTable α) (memo : Int → Option α)
    (n : Int) : (Int → Option α) × Except Exception α :=
  match memo n with
  | some r => (memo, .ok r)
  | none =>
    match compute n with
    | .ok r => (fun i => if i = n then some r else memo i, .ok r)
    | .error e => (memo, .error e)

/-- A `MixedThreeCyclesFunction` after `initialize` (with its networks and
tables) together with the cache of the square-root table it points to. -/
structure MixedThreeCyclesWorld (α : Type) where
  function : InitializedFunction α
  sqrtTable : Int → Option α

/-- The loop of the `!lopposite` block of `value`, as
`InitializedFunction.loopSecondNetwork`, on the world: every call of
`lsqrtTable->sqrt` goes through the cache. -/
def MixedThreeCyclesWorld.loopSecondNetwork {α : Type} [LinearOrderedField α] :
    List Int → MixedThreeCyclesWorld α → α → MixedThreeCyclesWorld α × Except Exception α
  | [], w, statistic => (w, .ok statistic)
  | actor :: rest, w, statistic =>
    if actor ≠ w.function.ego then
      if w.function.lroot then
        match SqrtTable.sqrt w.function.lsqrtTable w.sqrtTable
            (w.function.lpFirstInStarTable actor) with
        | (memo, .error e) => ({ w with sqrtTable := memo }, .error e)
        | (memo, .ok r) =>
          MixedThreeCyclesWorld.loopSecondNetwork rest { w with sqrtTable := memo }
            (statistic + (r - w.function.lavInTwoStar))
      else
        MixedThreeCyclesWorld.loopSecondNetwork rest w
          (statistic + (((w.function.lpFirstInStarTable actor : Int) : α)
            - w.function.lavInTwoStar))
    else MixedThreeCyclesWorld.loopSecondNetwork rest w statistic

/-- The loop of the `lopposite` block of `value`, as
`InitializedFunction.loopFirstNetwork`, on the world. -/
def MixedThreeCyclesWorld.loopFirstNetwork {α : Type} [LinearOrderedField α] :
    List Int → MixedThreeCyclesWorld α → α → MixedThreeCyclesWorld α × Except Exception α
  | [], w, statistic => (w, .ok statistic)
  | actor :: rest, w, statistic =>
    if actor ≠ w.function.ego then
      if w.function.lroot then
        match (if w.function.ltype = 2 then
            match SqrtTable.sqrt w.function.lsqrtTable w.sqrtTable
                (w.function.lpFirstSecondInStarTable actor) with
            | (memo, .error e) => ({ w with sqrtTable := memo }, .error e)
            | (memo, .ok r) => ({ w with sqrtTable := memo }, .ok (statistic + r))
          else (w, .ok statistic) : MixedThreeCyclesWorld α × Except Exception α) with
        | (w2, .error e) => (w2, .error e)
        | (w2, .ok statistic2) =>
          match (if w2.function.ltype = 1 then
              match SqrtTable.sqrt w2.function.lsqrtTable w2.sqrtTable
                  (w2.function.lpSecondFirstInStarTable actor - 1) with
              | (memo, .error e) => ({ w2 with sqrtTable := memo }, .error e)
              | (memo, .ok r) => ({ w2 with sqrtTable := memo }, .ok (statistic2 + r))
            else (w2, .ok statistic2) : MixedThreeCyclesWorld α × Except Exception α) with
          | (w1, .error e) => (w1, .error e)
          | (w1, .ok statistic1) =>
            MixedThreeCyclesWorld.loopFirstNetwork rest w1 statistic1
      else
        let statistic2 :=
          if w.function.ltype = 2 then
            statistic + ((w.function.lpFirstSecondInStarTable actor : Int) : α)
          else statistic
        let statistic1 :=
          if w.function.ltype = 1 then
            statistic2 + ((w.function.lpSecondFirstInStarTable actor - 1 : Int) : α)
          else statistic2
        MixedThreeCyclesWorld.loopFirstNetwork rest w statistic1
    else MixedThreeCyclesWorld.loopFirstNetwork rest w statistic

/-- Method `MixedThreeCyclesFunction::value(alter)` on the world: returns the
world left behind and the outcome. -/
def MixedThreeCyclesWorld.value {α : Type} [LinearOrderedField α]
    (w : MixedThreeCyclesWorld α) (alter : Int) :
    MixedThreeCyclesWorld α × Except Exception α :=
  match (if !w.function.lopposite then
      MixedThreeCyclesWorld.loopSecondNetwork (w.function.pSecondNetwork.inTies alter) w 0
    else (w, .ok 0) : MixedThreeCyclesWorld α × Except Exception α) with
  | (w1, .error e) => (w1, .error e)
  | (w1, .ok statistic) =>
    if w1.function.lopposite then
      MixedThreeCyclesWorld.loopFirstNetwork (w1.function.pFirstNetwork.inTies alter) w1
        statistic
    else (w1, .ok statistic)

/-- The cache holds only what the computation returns. -/
def MixedThreeCyclesWorld.Consistent {α : Type} (w : MixedThreeCyclesWorld α) : Prop :=
  ∀ n r, w.sqrtTable n = some r → w.function.lsqrtTable n = .ok r

/-! ## Vocabulary of the specification -/

/-- The qualifying actors of a sum of `value`: every actor `k` with a tie
`k → alter` in `network` and `k ≠ ego`. -/
def qualifying (network : Network) (ego alter : Int) : List Int :=
  (network.inTies alter).filter (fun k => decide (k ≠ ego))

/-- The addends of the `rootTransform = false` computation of
`value(alter)`: the terms that the loops add to `statistic` when `lroot` is
not set, in the order of the loop. -/
def InitializedFunction.addends {α : Type} [LinearOrderedField α]
    (f : InitializedFunction α) (alter : Int) : List α :=
  if f.lopposite then
    (qualifying f.pFirstNetwork f.ego alter).flatMap (fun k =>
      (if f.ltype = 2 then [((f.lpFirstSecondInStarTable k : Int) : α)] else []) ++
      (if f.ltype = 1 then [((f.lpSecondFirstInStarTable k - 1 : Int) : α)] else []))
  else
    (qualifying f.pSecondNetwork f.ego alter).map (fun k =>
      ((f.lpFirstInStarTable k : Int) : α) - f.lavInTwoStar)

/-- The `rootTransform = false` computation with each addend replaced by its
square root, as the specification words the rooted statistic. -/
def InitializedFunction.valueOfRootedAddends {α : Type} [LinearOrderedField α]
    (f : InitializedFunction α) (sqrt : α → α) (alter : Int) : α :=
  ((f.addends alter).map sqrt).sum

/-! ## Sample objects -/

/-- A square-root table on `ℚ` holding the exact roots of 0, 1, 4 and 9; it
raises on every other argument. -/
def exactSqrtTable : SqrtTable ℚ := fun n =>
  if n = 0 then .ok 0
  else if n = 1 then .ok 1
  else if n = 4 then .ok 2
  else if n = 9 then .ok 3
  else .error (.failure "no exact root")

/-- The roots that `exactSqrtTable` holds, as a total function. -/
def exactRoot (n : Int) : ℚ :=
  if n = 1 then 1 else if n = 4 then 2 else if n = 9 then 3 else 0

/-- A network in which the actors 1, 2 and 3 each send a tie to actor 4. -/
def sampleNetwork : Network :=
  ⟨fun alter => if alter = 4 then [1, 2, 3] else [],
   fun alter => by by_cases h : alter = 4 <;> simp [h]⟩

/-- A table holding 4 for actor 2, 9 for actor 3 and 0 elsewhere. -/
def sampleTable : ConfigurationTable := fun k =>
  if k = 2 then 4 else if k = 3 then 9 else 0

/-- A table holding 5 for actor 2, 10 for actor 3 and 1 elsewhere. -/
def sampleTableSucc : ConfigurationTable := fun k =>
  if k = 2 then 5 else if k = 3 then 10 else 1

/-- An initialized function on `ℚ` for ego 1, both networks being
`sampleNetwork`, with the given flags, variant and centering constant. -/
def sampleFunction (root center opposite : Bool) (type : Int) (lavInTwoStar : ℚ) :
    InitializedFunction ℚ :=
  { firstNetworkName := "W"
    secondNetworkName := "X"
    lsqrtTable := exactSqrtTable
    lroot := root
    lcenter := center
    lvariableName := "W"
    ltype := type
    lopposite := opposite
    ego := 1
    pFirstNetwork := sampleNetwork
    pSecondNetwork := sampleNetwork
    firstNetworkCacheInStarTable := sampleTable
    twoNetworkCacheInStarTable := sampleTable
    twoNetworkCacheReversedInStarTable := sampleTableSucc
    lpFirstInStarTable := sampleTable
    lpFirstSecondInStarTable := sampleTable
    lpSecondFirstInStarTable := sampleTableSucc
    lavInTwoStar := lavInTwoStar }

/-- A table holding 0 for every actor. -/
def zeroTable : ConfigurationTable := fun _ => 0

/-- An initialized function on `ℚ` for ego 1 whose second network has no
ties: `opposite = true`, variant 1, neither transform, first network
`sampleNetwork`, and every table entry 0 (no configuration that needs a tie
of the second network exists). -/
def oppositeOnEmptySecondNetwork : InitializedFunction ℚ :=
  { sampleFunction false false true 1 0 with
    pSecondNetwork := Network.empty
    firstNetworkCacheInStarTable := zeroTable
    twoNetworkCacheInStarTable := zeroTable
    twoNetworkCacheReversedInStarTable := zeroTable
    lpFirstInStarTable := zeroTable
    lpFirstSecondInStarTable := zeroTable
    lpSecondFirstInStarTable := zeroTable }

/-- The rooted, centred sample function with an empty second network and
`opposite = false`. -/
def notOppositeOnEmptySecondNetwork : InitializedFunction ℚ :=
  { sampleFunction true true false 2 1 with pSecondNetwork := Network.empty }

/-- A square root on `ℚ` for the sample data: exact on 0, 1, 4 and 9. -/
def exactSqrt (x : ℚ) : ℚ :=
  if x = 1 then 1 else if x = 4 then 2 else if x = 9 then 3 else 0

/-- Observed data holding, under the name `W` only, a network of 7 actors
with average in-degree 2 and average squared in-degree 8. -/
def sampleData (α : Type) [LinearOrderedField α] : Data α := fun name =>
  if name = "W" then
    some { averageSquaredInDegree := 8, averageInDegree := 2, m := 7 }
  else none

/-- A base-class part for ego 1 on `sampleNetwork` and the sample tables. -/
def sampleBase : MixedNetworkAlterFunction :=
  { ego := 1
    pFirstNetwork := sampleNetwork
    pSecondNetwork := sampleNetwork
    firstNetworkCacheInStarTable := sampleTable
    twoNetworkCacheInStarTable := sampleTable
    twoNetworkCacheReversedInStarTable := sampleTableSucc }

/-- The constructed function with parameter 4 (root and centre), variant 1
and `opposite = true` on `exactSqrtTable`. -/
def sampleOpposite : MixedThreeCyclesFunction ℚ :=
  MixedThreeCyclesFunction.new exactSqrtTable "W" "X" 4 1 true

/-- A square-root table on `ℚ` that clamps at 0: it returns 0 on every
negative argument and is `exactSqrtTable` elsewhere. -/
def clampingSqrtTable : SqrtTable ℚ := fun n =>
  if n < 0 then .ok 0 else exactSqrtTable n

/-- A square-root table on `ℚ` that raises on every negative argument and is
`exactSqrtTable` elsewhere. -/
def checkingSqrtTable : SqrtTable ℚ := fun n =>
  if n < 0 then .error (.failure "negative input") else exactSqrtTable n

/-- The rooted sample function of variant 1 with `opposite = true` whose
reversed pair table is 0 for every actor, on the given square-root table. -/
def zeroCountFunction (sqrtTable : SqrtTable ℚ) : InitializedFunction ℚ :=
  { sampleFunction true false true 1 0 with
    lsqrtTable := sqrtTable
    twoNetworkCacheReversedInStarTable := zeroTable
    lpSecondFirstInStarTable := zeroTable }

/-! ## The fixed instance of the specification

Four actors, first-network ties `1 → 2` and `3 → 2`, second-network tie
`2 → 4`, ego 1. -/

/-- The first network of the fixed instance: ties `1 → 2` and `3 → 2`. -/
def fixedFirstNetwork : Network :=
  ⟨fun alter => if alter = 2 then [1, 3] else [],
   fun alter => by by_cases h : alter = 2 <;> simp [h]⟩

/-- The second network of the fixed instance: the tie `2 → 4`. -/
def fixedSecondNetwork : Network :=
  ⟨fun alter => if alter = 4 then [2] else [],
   fun alter => by by_cases h : alter = 4 <;> simp [h]⟩

/-- Modelled from the spec: the in-star table that the network cache builds
for `ego`; the cache and `EgocentricConfigurationTable` are not among the
source files.  Following §4.3 (and the comment above `value`), which has
`value` count the paths `ego → h ← k → alter`, the entry of `k` is the number
of actors `h` with ties `ego → h` and `k → h` in the network. -/
def inStarTable (network : Network) (actors : List Int) (ego : Int) :
    ConfigurationTable := fun k =>
  ((actors.filter (fun h =>
      decide (ego ∈ network.inTies h) && decide (k ∈ network.inTies h))).length : Int)

/-- Modelled from the spec: the in-star count in the plain sense of the
glossary, "the number of ties received by an actor"; the table builder is
not among the source files. -/
def inDegreeTable (network : Network) : ConfigurationTable := fun k =>
  ((network.inTies k).length : Int)

/-- Observed data of the fixed instance under the name `W`: 4 actors with
in-degrees 0, 2, 0, 0. -/
def fixedData (α : Type) [LinearOrderedField α] : Data α := fun name =>
  if name = "W" then
    some { averageSquaredInDegree := 1, averageInDegree := 1 / 2, m := 4 }
  else none

/-- The base-class part of the fixed instance for ego 1, with the given
first-network in-star table; no two-path runs through both networks from
ego 1, so the pair tables are zero. -/
def fixedBase (firstInStarTable : ConfigurationTable) : MixedNetworkAlterFunction :=
  { ego := 1
    pFirstNetwork := fixedFirstNetwork
    pSecondNetwork := fixedSecondNetwork
    firstNetworkCacheInStarTable := firstInStarTable
    twoNetworkCacheInStarTable := zeroTable
    twoNetworkCacheReversedInStarTable := zeroTable }

/-- The constructed function of the fixed instance: parameter 0 (neither
transform), variant 1, `opposite = false`. -/
def fixedFunction : MixedThreeCyclesFunction ℚ :=
  MixedThreeCyclesFunction.new exactSqrtTable "W" "X" 0 1 false

/-- The network `sampleNetwork` with the tie `1 → 4` of ego 1 removed. -/
def sampleNetworkWithoutEgo : Network :=
  ⟨fun alter => if alter = 4 then [2, 3] else [],
   fun alter => by by_cases h : alter = 4 <;> simp [h]⟩

/-- The table `sampleTable` with the entry of ego 1 replaced by 7. -/
def sampleTableAtEgo : ConfigurationTable := fun k =>
  if k = 1 then 7 else sampleTable k

/-- The table `sampleTableSucc` with the entry of ego 1 replaced by 7. -/
def sampleTableSuccAtEgo : ConfigurationTable := fun k =>
  if k = 1 then 7 else sampleTableSucc k

/-- A network in which only actor 1 sends a tie to actor 4. -/
def egoOnlyNetwork : Network :=
  ⟨fun alter => if alter = 4 then [1] else [],
   fun alter => by by_cases h : alter = 4 <;> simp [h]⟩

/-- The rooted, centred sample function of variant 2 with `opposite = false`
whose second network is `egoOnlyNetwork`: ego 1 is the only sender to 4. -/
def noQualifyingFunction : InitializedFunction ℚ :=
  { sampleFunction true true false 2 1 with pSecondNetwork := egoOnlyNetwork }

/-- The constructed function with parameter 4 (root and centre), variant 1
and `opposite = false` on `exactSqrtTable`. -/
def sampleNotOpposite : MixedThreeCyclesFunction ℚ :=
  MixedThreeCyclesFunction.new exactSqrtTable "W" "X" 4 1 false

/-- The state of a sample operand: whether it has been initialized and the
ego it has been pre-processed for. -/
structure SampleState where
  initialized : Bool
  ego : Option Int
  deriving DecidableEq, Repr

/-- A sample operand: `initialize` raises when `fails` is set and marks the
state otherwise, `preprocessEgo` stores the ego, and `value` returns
`constant` without touching the state. -/
def sampleOperand (fails : Bool) (constant : ℚ) :
    AlterFunctionObject ℚ SampleState String :=
  { onInitialize := fun args s =>
      if fails then
        (s, .error (.logic_error ("Network data for " ++ args ++ " expected.")))
      else ({ s with initialized := true }, .ok ())
    onPreprocessEgo := fun ego s => { s with ego := some ego }
    onValue := fun _ s => (s, constant) }

/-- A sample base-class part: `initialize` marks the state and
`preprocessEgo` stores the ego. -/
def sampleAlterFunctionBase : AlterFunctionBase SampleState String :=
  { onInitialize := fun _ s => ({ s with initialized := true }, .ok ())
    onPreprocessEgo := fun ego s => { s with ego := some ego } }

/-- A sample `AbsDiffFunction` over the constant operands 5 / 2 and 3. -/
def sampleAbsDiff (firstFails : Bool) :
    AbsDiffFunctionObject ℚ SampleState SampleState SampleState String :=
  { alterFunction := sampleAlterFunctionBase
    lpFirstFunction := sampleOperand firstFails (5 / 2)
    lpSecondFunction := sampleOperand false 3 }

/-- The state of a sample `AbsDiffFunction` right after construction. -/
def sampleStart : AbsDiffFunctionState SampleState SampleState SampleState :=
  { alterFunction := ⟨false, none⟩
    firstFunction := ⟨false, none⟩
    secondFunction := ⟨false, none⟩ }

/-- The rooted, centred sample function with an empty square-root cache. -/
def sampleWorld : MixedThreeCyclesWorld ℚ :=
  { function := sampleFunction true true false 1 1
    sqrtTable := fun _ => none }

/-! ## Theorems -/

section AbsDiff

variable {α : Type} [LinearOrderedField α]

/-- C1: an `AbsDiffFunction` over two constant operands `a` and `b` returns
exactly `|a - b|` for every alter, in any ordered field (no truncation to an
integer); and for arbitrary operands `value(alter)` is
`|first.value(alter) - second.value(alter)|`. -/
theorem AbsDiffFunction.value_eq_abs_sub :
    (∀ (a b : α) (alter : Int),
      (AbsDiffFunction.new ⟨fun _ => a⟩ ⟨fun _ => b⟩).value alter = |a - b|) ∧
    (∀ (first second : AlterFunction α) (alter : Int),
      (AbsDiffFunction.new first second).value alter
        = |first.value alter - second.value alter|) :=
  ⟨fun _ _ _ => rfl, fun _ _ _ => rfl⟩

/-- C10: `AbsDiffFunction` does not depend on the order of its operands:
`AbsDiffFunction(A, B).value(alter) = AbsDiffFunction(B, A).value(alter)`. -/
theorem AbsDiffFunction.value_swap (A B : AlterFunction α) (alter : Int) :
    (AbsDiffFunction.new A B).value alter = (AbsDiffFunction.new B A).value alter := by
  simp only [AbsDiffFunction.value, AbsDiffFunction.new]
  exact abs_sub_comm _ _

end AbsDiff

section MixedThreeCycles

variable {α : Type} [LinearOrderedField α]

/-- The `!lopposite` loop returns the running sum plus the addends of the
qualifying actors of the remaining list, provided the square-root table
returns `r n` wherever the loop consults it. -/
theorem InitializedFunction.loopSecondNetwork_eq (f : InitializedFunction α)
    (r : Int → α) (l : List Int)
    (hr : f.lroot = true → ∀ k ∈ l, k ≠ f.ego →
      f.lsqrtTable (f.lpFirstInStarTable k) = .ok (r (f.lpFirstInStarTable k)))
    (statistic : α) :
    f.loopSecondNetwork l statistic
      = .ok (statistic + ((l.filter (fun k => decide (k ≠ f.ego))).map (fun k =>
          (if f.lroot then r (f.lpFirstInStarTable k)
            else ((f.lpFirstInStarTable k : Int) : α)) - f.lavInTwoStar)).sum) := by
  induction l generalizing statistic with
  | nil => simp [InitializedFunction.loopSecondNetwork]
  | cons k rest ih =>
    have hrest : f.lroot = true → ∀ j ∈ rest, j ≠ f.ego →
        f.lsqrtTable (f.lpFirstInStarTable j) = .ok (r (f.lpFirstInStarTable j)) :=
      fun h j hj => hr h j (List.mem_cons_of_mem _ hj)
    by_cases hk : k = f.ego
    · simp [InitializedFunction.loopSecondNetwork, hk, ih hrest]
    · by_cases hroot : f.lroot = true
      · have hsq := hr hroot k (List.mem_cons_self _ _) hk
        simp [InitializedFunction.loopSecondNetwork, hk, hroot, hsq, ih hrest, add_assoc]
      · simp [InitializedFunction.loopSecondNetwork, hk, hroot, ih hrest, add_assoc]

/-- The `!lopposite` loop reads neither `ltype` nor the two pair tables. -/
theorem InitializedFunction.loopSecondNetwork_congr (f g : InitializedFunction α)
    (hego : f.ego = g.ego) (hroot : f.lroot = g.lroot)
    (hsqrt : f.lsqrtTable = g.lsqrtTable)
    (htable : f.lpFirstInStarTable = g.lpFirstInStarTable)
    (hav : f.lavInTwoStar = g.lavInTwoStar) (l : List Int) (statistic : α) :
    f.loopSecondNetwork l statistic = g.loopSecondNetwork l statistic := by
  induction l generalizing statistic with
  | nil => simp [InitializedFunction.loopSecondNetwork]
  | cons k rest ih =>
    simp only [InitializedFunction.loopSecondNetwork, hego, hroot, hsqrt, htable, hav, ih]

/-- C2: with `opposite = false`, `value(alter)` is the sum over the qualifying
actors `k` of the second network (`k → alter`, `k ≠ ego`) of
`f(firstInStarTable[k]) - centeringConstant`, `f` being the identity without
`rootTransform` and the square-root table with it (which is assumed to return
`r n` on the entries it is asked for); and `value(alter)` is unchanged when
the variant selector and both pair tables are replaced. -/
theorem InitializedFunction.value_not_opposite (f : InitializedFunction α)
    (alter : Int) (r : Int → α) (hopp : f.lopposite = false)
    (hr : f.lroot = true → ∀ k ∈ qualifying f.pSecondNetwork f.ego alter,
      f.lsqrtTable (f.lpFirstInStarTable k) = .ok (r (f.lpFirstInStarTable k))) :
    f.value alter
      = .ok (((qualifying f.pSecondNetwork f.ego alter).map (fun k =>
          (if f.lroot then r (f.lpFirstInStarTable k)
            else ((f.lpFirstInStarTable k : Int) : α)) - f.lavInTwoStar)).sum) ∧
    ∀ (type : Int) (firstSecond secondFirst : ConfigurationTable),
      InitializedFunction.value
        { f with ltype := type, lpFirstSecondInStarTable := firstSecond,
                 lpSecondFirstInStarTable := secondFirst } alter
        = f.value alter := by
  constructor
  · have h := f.loopSecondNetwork_eq r (f.pSecondNetwork.inTies alter)
      (fun hroot k hk hne => hr hroot k (by simp [qualifying, hk, hne])) 0
    simp [InitializedFunction.value, hopp, h, qualifying]
  · intro type firstSecond secondFirst
    have h := InitializedFunction.loopSecondNetwork_congr
      { f with ltype := type, lpFirstSecondInStarTable := firstSecond,
               lpSecondFirstInStarTable := secondFirst } f rfl rfl rfl rfl rfl
      (f.pSecondNetwork.inTies alter) 0
    simp only [InitializedFunction.value, hopp, Bool.not_false, Bool.false_eq_true,
      if_true, if_false] at h ⊢
    rw [h]

/-- Witness of C2: the rooted, centred sample function with constant 1 on
`sampleNetwork`; the qualifying actors are 2 and 3 and the value is
`(2 - 1) + (3 - 1)`. -/
theorem InitializedFunction.value_not_opposite_witness :
    (sampleFunction true true false 1 1).lopposite = false ∧
    (sampleFunction true true false 1 1).value 4
      = .ok (((qualifying sampleNetwork 1 4).map (fun k =>
          (if (sampleFunction true true false 1 1).lroot then exactRoot (sampleTable k)
            else ((sampleTable k : Int) : ℚ)) - 1)).sum) ∧
    (((qualifying sampleNetwork 1 4).map (fun k =>
          (if (sampleFunction true true false 1 1).lroot then exactRoot (sampleTable k)
            else ((sampleTable k : Int) : ℚ)) - 1)).sum = 3) :=
  ⟨rfl,
   (InitializedFunction.value_not_opposite (sampleFunction true true false 1 1) 4
      exactRoot rfl (by
        intro _ k hk
        have h : k = 2 ∨ k = 3 := by
          simpa [qualifying, sampleFunction, sampleNetwork] using hk
        rcases h with rfl | rfl <;> rfl)).1,
   by norm_num [qualifying, sampleNetwork, sampleFunction, sampleTable, exactRoot]⟩

/-- The `lopposite` loop returns the running sum plus, for every qualifying
actor of the remaining list, the addend of variant 2 (if `ltype = 2`) and the
addend of variant 1 (if `ltype = 1`), provided the square-root table returns
`r n` wherever the loop consults it. -/
theorem InitializedFunction.loopFirstNetwork_eq (f : InitializedFunction α)
    (r : Int → α) (l : List Int)
    (hr : f.lroot = true → ∀ k ∈ l, k ≠ f.ego →
      (f.ltype = 2 → f.lsqrtTable (f.lpFirstSecondInStarTable k)
          = .ok (r (f.lpFirstSecondInStarTable k))) ∧
      (f.ltype = 1 → f.lsqrtTable (f.lpSecondFirstInStarTable k - 1)
          = .ok (r (f.lpSecondFirstInStarTable k - 1))))
    (statistic : α) :
    f.loopFirstNetwork l statistic
      = .ok (statistic + ((l.filter (fun k => decide (k ≠ f.ego))).map (fun k =>
          (if f.ltype = 2 then
              (if f.lroot then r (f.lpFirstSecondInStarTable k)
                else ((f.lpFirstSecondInStarTable k : Int) : α))
            else 0) +
          (if f.ltype = 1 then
              (if f.lroot then r (f.lpSecondFirstInStarTable k - 1)
                else ((f.lpSecondFirstInStarTable k - 1 : Int) : α))
            else 0))).sum) := by
  induction l generalizing statistic with
  | nil => simp [InitializedFunction.loopFirstNetwork]
  | cons k rest ih =>
    have hrest : f.lroot = true → ∀ j ∈ rest, j ≠ f.ego →
        (f.ltype = 2 → f.lsqrtTable (f.lpFirstSecondInStarTable j)
            = .ok (r (f.lpFirstSecondInStarTable j))) ∧
        (f.ltype = 1 → f.lsqrtTable (f.lpSecondFirstInStarTable j - 1)
            = .ok (r (f.lpSecondFirstInStarTable j - 1))) :=
      fun h j hj => hr h j (List.mem_cons_of_mem _ hj)
    by_cases hk : k = f.ego
    · simp [InitializedFunction.loopFirstNetwork, hk, ih hrest]
    · by_cases hroot : f.lroot = true
      · have hsq := hr hroot k (List.mem_cons_self _ _) hk
        by_cases h2 : f.ltype = 2
        · have h1 : f.ltype ≠ 1 := by omega
          simp [InitializedFunction.loopFirstNetwork, hk, hroot, h2, hsq.1 h2,
            ih hrest, add_assoc]
        · by_cases h1 : f.ltype = 1
          · simp [InitializedFunction.loopFirstNetwork, hk, hroot, h1, hsq.2 h1,
              ih hrest, add_assoc]
          · simp [InitializedFunction.loopFirstNetwork, hk, hroot, h1, h2, ih hrest]
      · by_cases h2 : f.ltype = 2
        · simp [InitializedFunction.loopFirstNetwork, hk, hroot, h2, ih hrest, add_assoc]
        · by_cases h1 : f.ltype = 1
          · simp [InitializedFunction.loopFirstNetwork, hk, hroot, h1, ih hrest,
              add_assoc]
          · simp [InitializedFunction.loopFirstNetwork, hk, hroot, h1, h2, ih hrest]

/-- C3: with `opposite = true`, `value(alter)` is the sum over the qualifying
actors `k` of the first network (`k → alter`, `k ≠ ego`) of `g(c_k)`, where
`c_k` is the first-then-second pair table entry of `k` for variant 2 and the
second-then-first pair table entry of `k` minus one for variant 1, and `g` is
the identity without `rootTransform` and the square-root table with it (which
is assumed to return `r n` on the arguments it is asked for). -/
theorem InitializedFunction.value_opposite (f : InitializedFunction α)
    (alter : Int) (r : Int → α) (hopp : f.lopposite = true)
    (hr : f.lroot = true → ∀ k ∈ qualifying f.pFirstNetwork f.ego alter,
      (f.ltype = 2 → f.lsqrtTable (f.lpFirstSecondInStarTable k)
          = .ok (r (f.lpFirstSecondInStarTable k))) ∧
      (f.ltype = 1 → f.lsqrtTable (f.lpSecondFirstInStarTable k - 1)
          = .ok (r (f.lpSecondFirstInStarTable k - 1)))) :
    (f.ltype = 2 → f.value alter
      = .ok (((qualifying f.pFirstNetwork f.ego alter).map (fun k =>
          if f.lroot then r (f.lpFirstSecondInStarTable k)
            else ((f.lpFirstSecondInStarTable k : Int) : α))).sum)) ∧
    (f.ltype = 1 → f.value alter
      = .ok (((qualifying f.pFirstNetwork f.ego alter).map (fun k =>
          if f.lroot then r (f.lpSecondFirstInStarTable k - 1)
            else ((f.lpSecondFirstInStarTable k - 1 : Int) : α))).sum)) := by
  have h := f.loopFirstNetwork_eq r (f.pFirstNetwork.inTies alter)
    (fun hroot k hk hne => hr hroot k (by simp [qualifying, hk, hne])) 0
  constructor
  · intro h2
    simp [InitializedFunction.value, hopp, h, qualifying, h2]
  · intro h1
    simp [InitializedFunction.value, hopp, h, qualifying, h1]

/-- Witness of C3: the rooted sample function of variant 1 on
`sampleNetwork`; the qualifying actors are 2 and 3, their reversed pair
counts are 5 and 10, and the value is `sqrt 4 + sqrt 9`. -/
theorem InitializedFunction.value_opposite_witness :
    (sampleFunction true false true 1 0).lopposite = true ∧
    ((sampleFunction true false true 1 0).ltype = 1 →
      (sampleFunction true false true 1 0).value 4
        = .ok (((qualifying sampleNetwork 1 4).map (fun k =>
            if (sampleFunction true false true 1 0).lroot
              then exactRoot (sampleTableSucc k - 1)
              else ((sampleTableSucc k - 1 : Int) : ℚ))).sum)) ∧
    (((qualifying sampleNetwork 1 4).map (fun k =>
            if (sampleFunction true false true 1 0).lroot
              then exactRoot (sampleTableSucc k - 1)
              else ((sampleTableSucc k - 1 : Int) : ℚ))).sum = 5) :=
  ⟨rfl,
   (InitializedFunction.value_opposite (sampleFunction true false true 1 0) 4
      exactRoot rfl (by
        intro _ k hk
        have h : k = 2 ∨ k = 3 := by
          simpa [qualifying, sampleFunction, sampleNetwork] using hk
        rcases h with rfl | rfl
        · exact ⟨fun h2 => absurd h2 (by decide), fun _ => rfl⟩
        · exact ⟨fun h2 => absurd h2 (by decide), fun _ => rfl⟩)).2,
   by norm_num [qualifying, sampleNetwork, sampleFunction, sampleTableSucc, exactRoot]⟩

/-- Counterexample to C4 as stated: with `opposite = true` and variant 1 the
loop runs over the first network; on an empty second network, with all
tables zero, `value(4)` is `-2`, not 0. -/
theorem InitializedFunction.value_empty_second_network_counterexample :
    (∀ alter, oppositeOnEmptySecondNetwork.pSecondNetwork.inTies alter = []) ∧
    oppositeOnEmptySecondNetwork.ltype = 1 ∧
    oppositeOnEmptySecondNetwork.lopposite = true ∧
    oppositeOnEmptySecondNetwork.value 4 = .ok (-2) ∧
    oppositeOnEmptySecondNetwork.value 4 ≠ .ok 0 := by
  have h : oppositeOnEmptySecondNetwork.value 4 = .ok (-2) := by
    simp [InitializedFunction.value, InitializedFunction.loopFirstNetwork,
      oppositeOnEmptySecondNetwork, sampleFunction, sampleNetwork, zeroTable]
    norm_num
  refine ⟨fun _ => rfl, rfl, rfl, h, ?_⟩
  rw [h]
  intro h0
  injection h0 with h0
  norm_num at h0

/-- C4 (amended): with `opposite = false`, whatever the flags, the variant,
the centering constant, the ego, the first network and the tables, if the
second network has no ties then `value(alter)` returns 0 for every alter. -/
theorem InitializedFunction.value_empty_second_network (f : InitializedFunction α)
    (hopp : f.lopposite = false)
    (hempty : ∀ alter, f.pSecondNetwork.inTies alter = []) (alter : Int) :
    f.value alter = .ok 0 := by
  simp [InitializedFunction.value, hopp, hempty, InitializedFunction.loopSecondNetwork]

/-- Witness of C4 (amended): the rooted, centred sample function on an empty
second network. -/
theorem InitializedFunction.value_empty_second_network_witness :
    notOppositeOnEmptySecondNetwork.lopposite = false ∧
    (∀ alter, notOppositeOnEmptySecondNetwork.pSecondNetwork.inTies alter = []) ∧
    notOppositeOnEmptySecondNetwork.value 4 = .ok 0 :=
  ⟨rfl, fun _ => rfl,
   InitializedFunction.value_empty_second_network notOppositeOnEmptySecondNetwork
     rfl (fun _ => rfl) 4⟩

/-- C5: once the base-class step has succeeded, `initialize` of a constructed
function fails exactly when the data provider has no longitudinal network
data under the first network's name, the error then being the `logic_error`
"Network data for <name> expected."; when the lookup succeeds, `initialize`
completes and returns the initialized function. -/
theorem MixedThreeCyclesFunction.initialize_fails_iff (sqrtTableInstance : SqrtTable α)
    (firstNetworkName secondNetworkName : String) (parameter : α) (type : Int)
    (opposite : Bool) (sqrt : α → α) (pData : Data α)
    (b : MixedNetworkAlterFunction) :
    ( MixedThreeCyclesFunction.initialize
          (MixedThreeCyclesFunction.new sqrtTableInstance firstNetworkName
            secondNetworkName parameter type opposite) sqrt pData (.ok b)
        = .error (.logic_error ("Network data for " ++ firstNetworkName ++ " expected."))
      ↔ pData firstNetworkName = none) ∧
    ((∃ e, MixedThreeCyclesFunction.initialize
          (MixedThreeCyclesFunction.new sqrtTableInstance firstNetworkName
            secondNetworkName parameter type opposite) sqrt pData (.ok b)
        = .error e)
      ↔ pData firstNetworkName = none) ∧
    ((∃ g, MixedThreeCyclesFunction.initialize
          (MixedThreeCyclesFunction.new sqrtTableInstance firstNetworkName
            secondNetworkName parameter type opposite) sqrt pData (.ok b)
        = .ok g)
      ↔ pData firstNetworkName ≠ none) := by
  cases h : pData firstNetworkName <;>
    simp [ MixedThreeCyclesFunction.initialize, MixedThreeCyclesFunction.new, h]

/-- C6: on network data with `m() ≥ 2` (and a successful base-class step)
`initialize` succeeds and the stored constant `lavInTwoStar` is
`(averageSquaredInDegree - averageInDegree) / (m - 1)` when `lcenter` is set,
replaced by its square root when `lroot` is set too, and 0 when `lcenter` is
not set; the divisor `m - 1` is not zero. -/
theorem MixedThreeCyclesFunction.initialize_lavInTwoStar (f : MixedThreeCyclesFunction α)
    (sqrt : α → α) (pData : Data α) (b : MixedNetworkAlterFunction)
    (d : NetworkLongitudinalData α)
    (hdata : pData f.lvariableName = some d) (hm : 2 ≤ d.m) :
    (∃ g, f.initialize sqrt pData (.ok b) = .ok g ∧
      g.lavInTwoStar
        = (if f.lcenter then
            (if f.lroot then
              sqrt ((d.averageSquaredInDegree - d.averageInDegree) / ((d.m : α) - 1))
            else (d.averageSquaredInDegree - d.averageInDegree) / ((d.m : α) - 1))
          else 0)) ∧
    (d.m : α) - 1 ≠ 0 := by
  constructor
  · simp only [ MixedThreeCyclesFunction.initialize, hdata]
    exact ⟨_, rfl, by simp only [Int.cast_sub, Int.cast_one]⟩
  · have h : ((1 : Int) : α) < (d.m : α) := by
      exact_mod_cast (by omega : (1 : Int) < d.m)
    have h1 : (0 : α) < (d.m : α) - 1 := by
      simpa using sub_pos.mpr h
    exact ne_of_gt h1

/-- Witness of C6: parameter 4 (root and centre) on the sample data, 7 actors
with average in-degree 2 and average squared in-degree 8: the constant is the
square root of `(8 - 2) / (7 - 1) = 1`. -/
theorem MixedThreeCyclesFunction.initialize_lavInTwoStar_witness :
    (2 : Int) ≤ 7 ∧
    (∃ g, MixedThreeCyclesFunction.initialize
        (MixedThreeCyclesFunction.new exactSqrtTable "W" "X" 4 1 false)
        exactSqrt (sampleData ℚ) (.ok sampleBase) = .ok g ∧
      g.lavInTwoStar
        = (if (MixedThreeCyclesFunction.new exactSqrtTable "W" "X" (4 : ℚ) 1 false).lcenter
            then
              (if (MixedThreeCyclesFunction.new exactSqrtTable "W" "X" (4 : ℚ) 1 false).lroot
                then exactSqrt (((8 : ℚ) - 2) / (((7 : Int) : ℚ) - 1))
                else ((8 : ℚ) - 2) / (((7 : Int) : ℚ) - 1))
            else 0)) ∧
    exactSqrt (((8 : ℚ) - 2) / (((7 : Int) : ℚ) - 1)) = 1 :=
  ⟨by decide,
   (MixedThreeCyclesFunction.initialize_lavInTwoStar
      (MixedThreeCyclesFunction.new exactSqrtTable "W" "X" 4 1 false) exactSqrt
      (sampleData ℚ) sampleBase
      { averageSquaredInDegree := 8, averageInDegree := 2, m := 7 }
      (by simp [MixedThreeCyclesFunction.new, sampleData]) (by decide)).1,
   by norm_num [exactSqrt]⟩

/-- Sum of the images of the addends of the `lopposite` loop, actor by actor. -/
theorem sum_map_flatMap_addends (l : List Int) (g : α → α) (a b : Int → α)
    (p q : Prop) [Decidable p] [Decidable q] :
    ((l.flatMap (fun k => (if p then [a k] else []) ++ (if q then [b k] else []))).map g).sum
      = (l.map (fun k => (if p then g (a k) else 0) + (if q then g (b k) else 0))).sum := by
  induction l with
  | nil => simp
  | cons k rest ih =>
    simp only [List.flatMap_cons, List.map_append, List.sum_append, List.map_cons,
      List.sum_cons, ih]
    by_cases hp : p <;> by_cases hq : q <;> simp [hp, hq]

/-- Without `rootTransform`, `value(alter)` is the sum of `addends`. -/
theorem InitializedFunction.value_eq_sum_addends (f : InitializedFunction α)
    (hroot : f.lroot = false) (alter : Int) :
    f.value alter = .ok (f.addends alter).sum := by
  have hid := sum_map_flatMap_addends (qualifying f.pFirstNetwork f.ego alter) id
    (fun k => ((f.lpFirstSecondInStarTable k : Int) : α))
    (fun k => ((f.lpSecondFirstInStarTable k - 1 : Int) : α)) (f.ltype = 2) (f.ltype = 1)
  simp only [List.map_id, id] at hid
  cases hopp : f.lopposite
  · have h := f.loopSecondNetwork_eq (fun _ => 0) (f.pSecondNetwork.inTies alter)
      (fun h => by simp [hroot] at h) 0
    simp [InitializedFunction.value, InitializedFunction.addends, hopp, h, qualifying, hroot]
  · have h := f.loopFirstNetwork_eq (fun _ => 0) (f.pFirstNetwork.inTies alter)
      (fun h => by simp [hroot] at h) 0
    simp only [InitializedFunction.value, InitializedFunction.addends, hopp,
      Bool.not_true, Bool.false_eq_true, if_false, if_true]
    rw [h, hid]
    simp [qualifying, hroot]

/-- The result of `initialize` when the base-class step and the data lookup
succeed. -/
theorem MixedThreeCyclesFunction.initialize_ok (f : MixedThreeCyclesFunction α)
    (sqrt : α → α) (pData : Data α) (b : MixedNetworkAlterFunction)
    (d : NetworkLongitudinalData α) (hdata : pData f.lvariableName = some d) :
    f.initialize sqrt pData (.ok b)
      = .ok
        { toMixedThreeCyclesFunction := f
          toMixedNetworkAlterFunction := b
          lpFirstInStarTable := b.firstNetworkCacheInStarTable
          lpFirstSecondInStarTable := b.twoNetworkCacheInStarTable
          lpSecondFirstInStarTable := b.twoNetworkCacheReversedInStarTable
          lavInTwoStar :=
            if f.lcenter then
              (if f.lroot then
                sqrt ((d.averageSquaredInDegree - d.averageInDegree) / (((d.m - 1 : Int) : α)))
              else (d.averageSquaredInDegree - d.averageInDegree) / (((d.m - 1 : Int) : α)))
            else 0 } := by
  simp only [ MixedThreeCyclesFunction.initialize, hdata]

/-- Counterexample to C7 as stated: parameter 4 (root and centre) against
parameter 3 (centre only), `opposite = false`, on the sample data (centering
constant `(8 - 2) / (7 - 1) = 1`) and the sample tables (counts 4 and 9 for
the qualifying actors 2 and 3), over `ℝ` with the real square root.  The
rooted `value(4)` is `(√4 - √1) + (√9 - √1) = 3`, whereas the unrooted
addends are `4 - 1` and `9 - 1`, whose square roots sum to `√3 + √8 > 3`. -/
theorem InitializedFunction.value_root_counterexample :
    ∃ rooted plain : InitializedFunction ℝ,
      MixedThreeCyclesFunction.initialize
          (MixedThreeCyclesFunction.new (fun n => .ok (Real.sqrt n)) "W" "X" 4 1 false)
          Real.sqrt (sampleData ℝ) (.ok sampleBase) = .ok rooted ∧
      MixedThreeCyclesFunction.initialize
          (MixedThreeCyclesFunction.new (fun n => .ok (Real.sqrt n)) "W" "X" 3 1 false)
          Real.sqrt (sampleData ℝ) (.ok sampleBase) = .ok plain ∧
      rooted.lroot = true ∧ plain.lroot = false ∧
      rooted.lcenter = true ∧ plain.lcenter = true ∧
      rooted.value 4 = .ok 3 ∧
      plain.valueOfRootedAddends Real.sqrt 4 = Real.sqrt 3 + Real.sqrt 8 ∧
      rooted.value 4 ≠ .ok (plain.valueOfRootedAddends Real.sqrt 4) := by
  have h4 : Real.sqrt 4 = 2 := by
    rw [Real.sqrt_eq_iff_mul_self_eq (by norm_num) (by norm_num)]; norm_num
  have h9 : Real.sqrt 9 = 3 := by
    rw [Real.sqrt_eq_iff_mul_self_eq (by norm_num) (by norm_num)]; norm_num
  have h3 : (1 : ℝ) < Real.sqrt 3 := by
    rw [Real.lt_sqrt (by norm_num)]; norm_num
  have h8 : (2 : ℝ) < Real.sqrt 8 := by
    rw [Real.lt_sqrt (by norm_num)]; norm_num
  have hdata : ∀ parameter : ℝ, sampleData ℝ
      (MixedThreeCyclesFunction.new (fun n => .ok (Real.sqrt n)) "W" "X" parameter 1
        false).lvariableName
      = some { averageSquaredInDegree := 8, averageInDegree := 2, m := 7 } := by
    intro parameter
    simp [sampleData, MixedThreeCyclesFunction.new]
  have hvalue : ∀ rooted : InitializedFunction ℝ,
      MixedThreeCyclesFunction.initialize
          (MixedThreeCyclesFunction.new (fun n => .ok (Real.sqrt n)) "W" "X" 4 1 false)
          Real.sqrt (sampleData ℝ) (.ok sampleBase) = .ok rooted →
      rooted.lroot = true ∧ rooted.lcenter = true ∧ rooted.value 4 = .ok 3 := by
    intro rooted hr
    rw [ MixedThreeCyclesFunction.initialize_ok _ _ _ _ _ (hdata 4)] at hr
    simp only [MixedThreeCyclesFunction.new] at hr
    injection hr with hr
    subst hr
    refine ⟨by norm_num, by norm_num, ?_⟩
    simp [InitializedFunction.value, InitializedFunction.loopSecondNetwork, sampleBase,
      sampleNetwork, sampleTable, h4, h9]
    norm_num
  have hplain : ∀ plain : InitializedFunction ℝ,
      MixedThreeCyclesFunction.initialize
          (MixedThreeCyclesFunction.new (fun n => .ok (Real.sqrt n)) "W" "X" 3 1 false)
          Real.sqrt (sampleData ℝ) (.ok sampleBase) = .ok plain →
      plain.lroot = false ∧ plain.lcenter = true ∧
      plain.valueOfRootedAddends Real.sqrt 4 = Real.sqrt 3 + Real.sqrt 8 := by
    intro plain hp
    rw [ MixedThreeCyclesFunction.initialize_ok _ _ _ _ _ (hdata 3)] at hp
    simp only [MixedThreeCyclesFunction.new] at hp
    injection hp with hp
    subst hp
    refine ⟨by norm_num, by norm_num, ?_⟩
    simp [InitializedFunction.valueOfRootedAddends, InitializedFunction.addends,
      qualifying, sampleBase, sampleNetwork, sampleTable]
    norm_num
  have hr := MixedThreeCyclesFunction.initialize_ok _ Real.sqrt _ sampleBase _ (hdata 4)
  have hp := MixedThreeCyclesFunction.initialize_ok _ Real.sqrt _ sampleBase _ (hdata 3)
  obtain ⟨r1, r2, r3⟩ := hvalue _ hr
  obtain ⟨p1, p2, p3⟩ := hplain _ hp
  refine ⟨_, _, hr, hp, r1, p1, r2, p2, r3, p3, ?_⟩
  rw [r3, p3]
  intro h
  injection h with h
  linarith

/-- C7 (amended): for a constructed function with `centerTransform` off or
`opposite = true`, initialized on the same data and base-class part once
with `lroot` set and once with `lroot` cleared, the rooted `value(alter)`
equals the unrooted computation with each addend replaced by its square
root, provided the square-root table returns the square root of the
integers it is asked for. -/
theorem MixedThreeCyclesFunction.value_root_eq_rooted_addends
    (f : MixedThreeCyclesFunction α) (sqrt : α → α) (pData : Data α)
    (b : MixedNetworkAlterFunction) (d : NetworkLongitudinalData α) (alter : Int)
    (hdata : pData f.lvariableName = some d)
    (hcase : f.lcenter = false ∨ f.lopposite = true)
    (hsecond : f.lopposite = false → ∀ k ∈ qualifying b.pSecondNetwork b.ego alter,
      f.lsqrtTable (b.firstNetworkCacheInStarTable k)
        = .ok (sqrt ((b.firstNetworkCacheInStarTable k : Int) : α)))
    (hfirst : f.lopposite = true → ∀ k ∈ qualifying b.pFirstNetwork b.ego alter,
      (f.ltype = 2 → f.lsqrtTable (b.twoNetworkCacheInStarTable k)
          = .ok (sqrt ((b.twoNetworkCacheInStarTable k : Int) : α))) ∧
      (f.ltype = 1 → f.lsqrtTable (b.twoNetworkCacheReversedInStarTable k - 1)
          = .ok (sqrt ((b.twoNetworkCacheReversedInStarTable k - 1 : Int) : α)))) :
    ∃ rooted plain : InitializedFunction α,
      MixedThreeCyclesFunction.initialize { f with lroot := true } sqrt pData (.ok b)
        = .ok rooted ∧
      MixedThreeCyclesFunction.initialize { f with lroot := false } sqrt pData (.ok b)
        = .ok plain ∧
      rooted.value alter = .ok (plain.valueOfRootedAddends sqrt alter) := by
  refine ⟨_, _,
    MixedThreeCyclesFunction.initialize_ok { f with lroot := true } sqrt pData b d hdata,
    MixedThreeCyclesFunction.initialize_ok { f with lroot := false } sqrt pData b d hdata,
    ?_⟩
  cases hopp : f.lopposite
  · have hcenter : f.lcenter = false := by
      rcases hcase with h | h
      · exact h
      · rw [hopp] at h; exact absurd h (by decide)
    have h := InitializedFunction.loopSecondNetwork_eq
      { toMixedThreeCyclesFunction := { f with lroot := true }
        toMixedNetworkAlterFunction := b
        lpFirstInStarTable := b.firstNetworkCacheInStarTable
        lpFirstSecondInStarTable := b.twoNetworkCacheInStarTable
        lpSecondFirstInStarTable := b.twoNetworkCacheReversedInStarTable
        lavInTwoStar := (0 : α) }
      (fun n => sqrt (n : α)) (b.pSecondNetwork.inTies alter)
      (fun _ k hk hne => hsecond hopp k (by simp [qualifying, hk, hne])) 0
    simp only [InitializedFunction.value, InitializedFunction.valueOfRootedAddends,
      InitializedFunction.addends, hopp, hcenter, Bool.not_false, Bool.false_eq_true,
      if_true, if_false] at h ⊢
    rw [h]
    simp [qualifying, Function.comp_def]
  · have h := InitializedFunction.loopFirstNetwork_eq
      { toMixedThreeCyclesFunction := { f with lroot := true }
        toMixedNetworkAlterFunction := b
        lpFirstInStarTable := b.firstNetworkCacheInStarTable
        lpFirstSecondInStarTable := b.twoNetworkCacheInStarTable
        lpSecondFirstInStarTable := b.twoNetworkCacheReversedInStarTable
        lavInTwoStar :=
          if f.lcenter then
            sqrt ((d.averageSquaredInDegree - d.averageInDegree) / (((d.m - 1 : Int) : α)))
          else 0 }
      (fun n => sqrt (n : α)) (b.pFirstNetwork.inTies alter)
      (fun _ k hk hne => hfirst hopp k (by simp [qualifying, hk, hne])) 0
    have hsum := sum_map_flatMap_addends (qualifying b.pFirstNetwork b.ego alter) sqrt
      (fun k => ((b.twoNetworkCacheInStarTable k : Int) : α))
      (fun k => ((b.twoNetworkCacheReversedInStarTable k - 1 : Int) : α))
      (f.ltype = 2) (f.ltype = 1)
    simp only [InitializedFunction.value, InitializedFunction.valueOfRootedAddends,
      InitializedFunction.addends, hopp, Bool.not_true, Bool.false_eq_true,
      if_true, if_false] at h ⊢
    rw [h, hsum]
    simp [qualifying]

/-- Witness of C7 (amended): parameter 4, variant 1, `opposite = true` on the
sample data and base-class part; the square-root table is asked for the
roots of `5 - 1` and `10 - 1`. -/
theorem MixedThreeCyclesFunction.value_root_eq_rooted_addends_witness :
    (sampleOpposite.lcenter = false ∨ sampleOpposite.lopposite = true) ∧
    ∃ rooted plain : InitializedFunction ℚ,
      MixedThreeCyclesFunction.initialize { sampleOpposite with lroot := true } exactSqrt
        (sampleData ℚ) (.ok sampleBase) = .ok rooted ∧
      MixedThreeCyclesFunction.initialize { sampleOpposite with lroot := false } exactSqrt
        (sampleData ℚ) (.ok sampleBase) = .ok plain ∧
      rooted.value 4 = .ok (plain.valueOfRootedAddends exactSqrt 4) :=
  ⟨Or.inr rfl,
   MixedThreeCyclesFunction.value_root_eq_rooted_addends sampleOpposite exactSqrt
     (sampleData ℚ) sampleBase
     { averageSquaredInDegree := 8, averageInDegree := 2, m := 7 } 4
     (by simp [sampleOpposite, MixedThreeCyclesFunction.new, sampleData])
     (Or.inr rfl)
     (fun h => absurd h (by simp [sampleOpposite, MixedThreeCyclesFunction.new]))
     (by
       intro _ k hk
       have h : k = 2 ∨ k = 3 := by
         simpa [qualifying, sampleBase, sampleNetwork] using hk
       rcases h with rfl | rfl
       · refine ⟨fun h2 => absurd h2 (by decide), fun _ => ?_⟩
         norm_num [sampleOpposite, MixedThreeCyclesFunction.new, sampleBase,
           sampleTableSucc, exactSqrtTable, exactSqrt]
       · refine ⟨fun h2 => absurd h2 (by decide), fun _ => ?_⟩
         norm_num [sampleOpposite, MixedThreeCyclesFunction.new, sampleBase,
           sampleTableSucc, exactSqrtTable, exactSqrt])⟩

/-- The rooted `lopposite` loop of variant 1 fails as soon as the square-root
table raises on the argument of a qualifying actor of the list, with an
error the table raised on such an argument. -/
theorem InitializedFunction.loopFirstNetwork_error (f : InitializedFunction α)
    (hroot : f.lroot = true) (htype : f.ltype = 1) (l : List Int) (k : Int)
    (hk : k ∈ l) (hne : k ≠ f.ego) (e : Exception)
    (herr : f.lsqrtTable (f.lpSecondFirstInStarTable k - 1) = .error e)
    (statistic : α) :
    ∃ j ∈ l, j ≠ f.ego ∧ ∃ e2,
      f.lsqrtTable (f.lpSecondFirstInStarTable j - 1) = .error e2 ∧
      f.loopFirstNetwork l statistic = .error e2 := by
  induction l generalizing statistic with
  | nil => exact absurd hk (List.not_mem_nil _)
  | cons j rest ih =>
    have h2 : f.ltype ≠ 2 := by omega
    by_cases hj : j = f.ego
    · have hkrest : k ∈ rest := by
        rcases List.mem_cons.mp hk with h | h
        · exact absurd (h.trans hj) hne
        · exact h
      obtain ⟨i, hi, hine, e2, he2, hloop⟩ := ih hkrest statistic
      exact ⟨i, List.mem_cons_of_mem _ hi, hine, e2, he2, by
        simpa [InitializedFunction.loopFirstNetwork, hj] using hloop⟩
    · cases hres : f.lsqrtTable (f.lpSecondFirstInStarTable j - 1) with
      | error e2 =>
        exact ⟨j, List.mem_cons_self _ _, hj, e2, hres, by
          simp [InitializedFunction.loopFirstNetwork, hj, hroot, htype, hres]⟩
      | ok x =>
        have hkrest : k ∈ rest := by
          rcases List.mem_cons.mp hk with h | h
          · rw [h, hres] at herr; cases herr
          · exact h
        obtain ⟨i, hi, hine, e2, he2, hloop⟩ := ih hkrest (statistic + x)
        exact ⟨i, List.mem_cons_of_mem _ hi, hine, e2, he2, by
          simpa [InitializedFunction.loopFirstNetwork, hj, hroot, htype, hres]
            using hloop⟩

/-- Counterexample to C8 as stated: `opposite = true`, variant 1,
`rootTransform` set, and the raw reversed pair count of the qualifying actor
2 is 0, so the square-root table is asked for the root of `-1`; on a table
that clamps negative arguments at 0, `value(4)` returns the number 0 and
does not fail. -/
theorem InitializedFunction.value_variant_one_counterexample :
    (zeroCountFunction clampingSqrtTable).lopposite = true ∧
    (zeroCountFunction clampingSqrtTable).ltype = 1 ∧
    (zeroCountFunction clampingSqrtTable).lroot = true ∧
    2 ∈ qualifying (zeroCountFunction clampingSqrtTable).pFirstNetwork
      (zeroCountFunction clampingSqrtTable).ego 4 ∧
    (zeroCountFunction clampingSqrtTable).lpSecondFirstInStarTable 2 = 0 ∧
    (zeroCountFunction clampingSqrtTable).value 4 = .ok 0 ∧
    ¬ ∃ e, (zeroCountFunction clampingSqrtTable).value 4 = .error e := by
  have h : (zeroCountFunction clampingSqrtTable).value 4 = .ok 0 := by
    simp [InitializedFunction.value, InitializedFunction.loopFirstNetwork,
      zeroCountFunction, sampleFunction, sampleNetwork, zeroTable, clampingSqrtTable]
  refine ⟨rfl, rfl, rfl, by decide, rfl, h, ?_⟩
  rintro ⟨e, he⟩
  rw [h] at he
  cases he

/-- C8 (amended): with `opposite = true` and variant 1, `value(alter)` always
takes the raw reversed pair count of each qualifying `k` minus one: without
`rootTransform` it sums these differences, with `rootTransform` it hands
them to the square-root table and sums what the table returns.  `value`
has no check of its own: when `rootTransform` is set and the raw count of
some qualifying `k` is 0, it fails if the square-root table raises on `-1`
(with an error the table raised for a qualifying actor). -/
theorem InitializedFunction.value_variant_one (f : InitializedFunction α)
    (alter : Int) (hopp : f.lopposite = true) (htype : f.ltype = 1) :
    (f.lroot = false → f.value alter
      = .ok (((qualifying f.pFirstNetwork f.ego alter).map (fun k =>
          ((f.lpSecondFirstInStarTable k - 1 : Int) : α))).sum)) ∧
    (f.lroot = true → ∀ r : Int → α,
      (∀ k ∈ qualifying f.pFirstNetwork f.ego alter,
        f.lsqrtTable (f.lpSecondFirstInStarTable k - 1)
          = .ok (r (f.lpSecondFirstInStarTable k - 1))) →
      f.value alter
        = .ok (((qualifying f.pFirstNetwork f.ego alter).map (fun k =>
            r (f.lpSecondFirstInStarTable k - 1))).sum)) ∧
    (f.lroot = true → ∀ k ∈ qualifying f.pFirstNetwork f.ego alter,
      f.lpSecondFirstInStarTable k = 0 → ∀ e, f.lsqrtTable (-1) = .error e →
      ∃ j ∈ qualifying f.pFirstNetwork f.ego alter, ∃ e2,
        f.lsqrtTable (f.lpSecondFirstInStarTable j - 1) = .error e2 ∧
        f.value alter = .error e2) := by
  have h2 : f.ltype ≠ 2 := by omega
  refine ⟨?_, ?_, ?_⟩
  · intro hroot
    have h := f.loopFirstNetwork_eq (fun _ => 0) (f.pFirstNetwork.inTies alter)
      (fun h => by simp [hroot] at h) 0
    simp [InitializedFunction.value, hopp, h, qualifying, htype, hroot]
  · intro hroot r hr
    have h := f.loopFirstNetwork_eq r (f.pFirstNetwork.inTies alter)
      (fun _ k hk hne => ⟨fun h => absurd h h2,
        fun _ => hr k (by simp [qualifying, hk, hne])⟩) 0
    simp [InitializedFunction.value, hopp, h, qualifying, htype, hroot]
  · intro hroot k hk hzero e herr
    have hmem : k ∈ f.pFirstNetwork.inTies alter ∧ k ≠ f.ego := by
      simpa [qualifying] using hk
    obtain ⟨j, hj, hjne, e2, he2, hloop⟩ :=
      f.loopFirstNetwork_error hroot htype (f.pFirstNetwork.inTies alter) k hmem.1
        hmem.2 e (by rw [hzero]; simpa using herr) 0
    refine ⟨j, by simp [qualifying, hj, hjne], e2, he2, ?_⟩
    simp [InitializedFunction.value, hopp, hloop]

/-- Witness of C8 (amended): the function of the counterexample on a
square-root table that raises on negative arguments: `value(4)` fails with
the table's error. -/
theorem InitializedFunction.value_variant_one_witness :
    (zeroCountFunction checkingSqrtTable).lopposite = true ∧
    (zeroCountFunction checkingSqrtTable).ltype = 1 ∧
    ∃ j ∈ qualifying (zeroCountFunction checkingSqrtTable).pFirstNetwork
        (zeroCountFunction checkingSqrtTable).ego 4, ∃ e2,
      (zeroCountFunction checkingSqrtTable).lsqrtTable
        ((zeroCountFunction checkingSqrtTable).lpSecondFirstInStarTable j - 1)
          = .error e2 ∧
      (zeroCountFunction checkingSqrtTable).value 4 = .error e2 :=
  ⟨rfl, rfl,
   (InitializedFunction.value_variant_one (zeroCountFunction checkingSqrtTable) 4
      rfl rfl).2.2 rfl 2 (by decide) rfl (.failure "negative input") rfl⟩

/-- Counterexample to C9 as stated: on the fixed instance `value(4)` is the
in-star table entry of actor 2, and that entry is not 1: it is 0 when the
table counts the actors `h` with `1 → h ← 2` in the first network (actor 2
sends no tie there), and 2 when it holds the in-degree of actor 2. -/
theorem InitializedFunction.value_fixed_instance_counterexample :
    (∃ g, fixedFunction.initialize exactSqrt (fixedData ℚ)
        (.ok (fixedBase (inStarTable fixedFirstNetwork [1, 2, 3, 4] 1))) = .ok g ∧
      g.lpFirstInStarTable 2 = 0 ∧ g.value 4 = .ok 0 ∧ g.value 4 ≠ .ok 1) ∧
    (∃ g, fixedFunction.initialize exactSqrt (fixedData ℚ)
        (.ok (fixedBase (inDegreeTable fixedFirstNetwork))) = .ok g ∧
      g.lpFirstInStarTable 2 = 2 ∧ g.value 4 = .ok 2 ∧ g.value 4 ≠ .ok 1) := by
  have hdata : fixedData ℚ fixedFunction.lvariableName
      = some { averageSquaredInDegree := 1, averageInDegree := 1 / 2, m := 4 } := by
    simp [fixedData, fixedFunction, MixedThreeCyclesFunction.new]
  constructor
  · refine ⟨_, MixedThreeCyclesFunction.initialize_ok _ _ _ _ _ hdata, by decide, ?_⟩
    have h : InitializedFunction.value
        { toMixedThreeCyclesFunction := fixedFunction
          toMixedNetworkAlterFunction :=
            fixedBase (inStarTable fixedFirstNetwork [1, 2, 3, 4] 1)
          lpFirstInStarTable := inStarTable fixedFirstNetwork [1, 2, 3, 4] 1
          lpFirstSecondInStarTable := zeroTable
          lpSecondFirstInStarTable := zeroTable
          lavInTwoStar := (0 : ℚ) } 4 = .ok 0 := by
      simp [InitializedFunction.value, InitializedFunction.loopSecondNetwork,
        fixedFunction, MixedThreeCyclesFunction.new, fixedBase, fixedSecondNetwork,
        fixedFirstNetwork, inStarTable]
    simp only [fixedBase, fixedFunction, MixedThreeCyclesFunction.new] at h ⊢
    norm_num at h ⊢
    exact ⟨h, by rw [h]; intro h1; injection h1 with h1; norm_num at h1⟩
  · refine ⟨_, MixedThreeCyclesFunction.initialize_ok _ _ _ _ _ hdata, by decide, ?_⟩
    have h : InitializedFunction.value
        { toMixedThreeCyclesFunction := fixedFunction
          toMixedNetworkAlterFunction := fixedBase (inDegreeTable fixedFirstNetwork)
          lpFirstInStarTable := inDegreeTable fixedFirstNetwork
          lpFirstSecondInStarTable := zeroTable
          lpSecondFirstInStarTable := zeroTable
          lavInTwoStar := (0 : ℚ) } 4 = .ok 2 := by
      simp [InitializedFunction.value, InitializedFunction.loopSecondNetwork,
        fixedFunction, MixedThreeCyclesFunction.new, fixedBase, fixedSecondNetwork,
        fixedFirstNetwork, inDegreeTable]
    simp only [fixedBase, fixedFunction, MixedThreeCyclesFunction.new] at h ⊢
    norm_num at h ⊢
    exact ⟨h, by rw [h]; intro h1; injection h1 with h1; norm_num at h1⟩

/-- C9 (amended): on the fixed instance (first-network ties `1 → 2`, `3 → 2`,
second-network tie `2 → 4`, ego 1, neither transform, `opposite = false`)
actor 2 is the single qualifying `k`, `initialize` succeeds, and `value(4)`
equals the first-network in-star table entry of actor 2, whatever the table
holds. -/
theorem MixedThreeCyclesFunction.value_fixed_instance (f : MixedThreeCyclesFunction α)
    (sqrt : α → α) (pData : Data α) (b : MixedNetworkAlterFunction)
    (d : NetworkLongitudinalData α) (hdata : pData f.lvariableName = some d)
    (hcenter : f.lcenter = false) (hroot : f.lroot = false)
    (hopp : f.lopposite = false) (hego : b.ego = 1)
    (hfirst : b.pFirstNetwork = fixedFirstNetwork)
    (hsecond : b.pSecondNetwork = fixedSecondNetwork) :
    qualifying b.pSecondNetwork b.ego 4 = [2] ∧
    b.pFirstNetwork.inTies 2 = [1, 3] ∧
    ∃ g, f.initialize sqrt pData (.ok b) = .ok g ∧
      g.value 4 = .ok ((b.firstNetworkCacheInStarTable 2 : Int) : α) := by
  refine ⟨by simp [qualifying, hsecond, hego, fixedSecondNetwork],
    by simp [hfirst, fixedFirstNetwork],
    _, MixedThreeCyclesFunction.initialize_ok f sqrt pData b d hdata, ?_⟩
  simp [InitializedFunction.value, InitializedFunction.loopSecondNetwork, hopp, hroot,
    hcenter, hego, hsecond, fixedSecondNetwork]

/-- Witness of C9 (amended): the fixed instance on `ℚ` with the table that
counts the actors `h` with `1 → h ← k`. -/
theorem MixedThreeCyclesFunction.value_fixed_instance_witness :
    fixedFunction.lcenter = false ∧ fixedFunction.lroot = false ∧
    fixedFunction.lopposite = false ∧
    ∃ g, fixedFunction.initialize exactSqrt (fixedData ℚ)
        (.ok (fixedBase (inStarTable fixedFirstNetwork [1, 2, 3, 4] 1))) = .ok g ∧
      g.value 4 = .ok ((((fixedBase (inStarTable fixedFirstNetwork [1, 2, 3, 4] 1)
        ).firstNetworkCacheInStarTable 2 : Int)) : ℚ) :=
  ⟨by simp [fixedFunction, MixedThreeCyclesFunction.new],
   by simp [fixedFunction, MixedThreeCyclesFunction.new],
   rfl,
   (MixedThreeCyclesFunction.value_fixed_instance fixedFunction exactSqrt (fixedData ℚ)
      (fixedBase (inStarTable fixedFirstNetwork [1, 2, 3, 4] 1))
      { averageSquaredInDegree := 1, averageInDegree := 1 / 2, m := 4 }
      (by simp [fixedData, fixedFunction, MixedThreeCyclesFunction.new])
      (by simp [fixedFunction, MixedThreeCyclesFunction.new])
      (by simp [fixedFunction, MixedThreeCyclesFunction.new])
      rfl rfl rfl rfl).2.2⟩

/-- The `!lopposite` loop skips ego: it runs the same on the list with ego
removed. -/
theorem InitializedFunction.loopSecondNetwork_filter (f : InitializedFunction α)
    (l : List Int) (statistic : α) :
    f.loopSecondNetwork l statistic
      = f.loopSecondNetwork (l.filter (fun k => decide (k ≠ f.ego))) statistic := by
  induction l generalizing statistic with
  | nil => rfl
  | cons k rest ih =>
    by_cases hk : k = f.ego
    · simp [InitializedFunction.loopSecondNetwork, hk, ih]
    · have hfilter : (k :: rest).filter (fun k => decide (k ≠ f.ego))
          = k :: rest.filter (fun k => decide (k ≠ f.ego)) := by
        simp [hk]
      rw [hfilter]
      simp only [InitializedFunction.loopSecondNetwork, ih]

/-- The `lopposite` loop skips ego: it runs the same on the list with ego
removed. -/
theorem InitializedFunction.loopFirstNetwork_filter (f : InitializedFunction α)
    (l : List Int) (statistic : α) :
    f.loopFirstNetwork l statistic
      = f.loopFirstNetwork (l.filter (fun k => decide (k ≠ f.ego))) statistic := by
  induction l generalizing statistic with
  | nil => rfl
  | cons k rest ih =>
    by_cases hk : k = f.ego
    · simp [InitializedFunction.loopFirstNetwork, hk, ih]
    · have hfilter : (k :: rest).filter (fun k => decide (k ≠ f.ego))
          = k :: rest.filter (fun k => decide (k ≠ f.ego)) := by
        simp [hk]
      rw [hfilter]
      simp only [InitializedFunction.loopFirstNetwork, ih]

/-- The `!lopposite` loop reads the first in-star table only at actors other
than ego (and neither `ltype`, `lcenter` nor the pair tables). -/
theorem InitializedFunction.loopSecondNetwork_congr_of_ne (f g : InitializedFunction α)
    (hego : f.ego = g.ego) (hroot : f.lroot = g.lroot)
    (hsqrt : f.lsqrtTable = g.lsqrtTable)
    (htable : ∀ k, k ≠ g.ego → f.lpFirstInStarTable k = g.lpFirstInStarTable k)
    (hav : f.lavInTwoStar = g.lavInTwoStar) (l : List Int) (statistic : α) :
    f.loopSecondNetwork l statistic = g.loopSecondNetwork l statistic := by
  induction l generalizing statistic with
  | nil => simp [InitializedFunction.loopSecondNetwork]
  | cons k rest ih =>
    by_cases hk : k = g.ego
    · simp [InitializedFunction.loopSecondNetwork, hego, hk, ih]
    · simp only [InitializedFunction.loopSecondNetwork, hego, hroot, hsqrt, htable k hk,
        hav, ih]

/-- The `lopposite` loop reads the two pair tables only at actors other than
ego (and neither `lcenter`, `lavInTwoStar` nor the first in-star table). -/
theorem InitializedFunction.loopFirstNetwork_congr_of_ne (f g : InitializedFunction α)
    (hego : f.ego = g.ego) (hroot : f.lroot = g.lroot) (htype : f.ltype = g.ltype)
    (hsqrt : f.lsqrtTable = g.lsqrtTable)
    (hfs : ∀ k, k ≠ g.ego →
      f.lpFirstSecondInStarTable k = g.lpFirstSecondInStarTable k)
    (hsf : ∀ k, k ≠ g.ego →
      f.lpSecondFirstInStarTable k = g.lpSecondFirstInStarTable k)
    (l : List Int) (statistic : α) :
    f.loopFirstNetwork l statistic = g.loopFirstNetwork l statistic := by
  induction l generalizing statistic with
  | nil => simp [InitializedFunction.loopFirstNetwork]
  | cons k rest ih =>
    by_cases hk : k = g.ego
    · simp [InitializedFunction.loopFirstNetwork, hego, hk, ih]
    · simp only [InitializedFunction.loopFirstNetwork, hego, hroot, htype, hsqrt,
        hfs k hk, hsf k hk, ih]

/-- C11: `k = ego` is always excluded.  For every initialized function (any
flags, variant, `opposite` setting), replacing the networks by networks whose
qualifying actors for `alter` in the iterated network are the same (so the
iterated network may gain or lose the tie `ego → alter`), and replacing the
three tables by tables that agree with them at every actor other than ego,
leaves `value(alter)` unchanged. -/
theorem InitializedFunction.value_ego_excluded (f : InitializedFunction α)
    (alter : Int) (first second : Network) (T TFS TSF : ConfigurationTable)
    (hnet : qualifying (if f.lopposite then first else second) f.ego alter
      = qualifying (if f.lopposite then f.pFirstNetwork else f.pSecondNetwork)
          f.ego alter)
    (hT : ∀ k, k ≠ f.ego → T k = f.lpFirstInStarTable k)
    (hTFS : ∀ k, k ≠ f.ego → TFS k = f.lpFirstSecondInStarTable k)
    (hTSF : ∀ k, k ≠ f.ego → TSF k = f.lpSecondFirstInStarTable k) :
    InitializedFunction.value
        { f with pFirstNetwork := first, pSecondNetwork := second,
                 lpFirstInStarTable := T, lpFirstSecondInStarTable := TFS,
                 lpSecondFirstInStarTable := TSF } alter
      = f.value alter := by
  cases hopp : f.lopposite
  · have h1 := InitializedFunction.loopSecondNetwork_congr_of_ne
      { f with pFirstNetwork := first, pSecondNetwork := second,
               lpFirstInStarTable := T, lpFirstSecondInStarTable := TFS,
               lpSecondFirstInStarTable := TSF } f rfl rfl rfl hT rfl
      (second.inTies alter) 0
    have h2 := f.loopSecondNetwork_filter (second.inTies alter) 0
    have h3 := f.loopSecondNetwork_filter (f.pSecondNetwork.inTies alter) 0
    simp only [hopp, qualifying, Bool.false_eq_true, if_false] at hnet
    simp only [InitializedFunction.value, hopp, Bool.not_false, Bool.false_eq_true,
      if_true, if_false] at h1 ⊢
    rw [h1, h2, hnet, ← h3]
  · have h1 := InitializedFunction.loopFirstNetwork_congr_of_ne
      { f with pFirstNetwork := first, pSecondNetwork := second,
               lpFirstInStarTable := T, lpFirstSecondInStarTable := TFS,
               lpSecondFirstInStarTable := TSF } f rfl rfl rfl rfl hTFS hTSF
      (first.inTies alter) 0
    have h2 := f.loopFirstNetwork_filter (first.inTies alter) 0
    have h3 := f.loopFirstNetwork_filter (f.pFirstNetwork.inTies alter) 0
    simp only [hopp, qualifying, if_true] at hnet
    simp only [InitializedFunction.value, hopp, Bool.not_true, Bool.false_eq_true,
      if_true, if_false] at h1 ⊢
    rw [h1, h2, hnet, ← h3]

/-- Witness of C11: the rooted, centred sample function on `sampleNetwork`
(which holds the tie `1 → 4` of ego 1) against the same function on the
network without that tie and on tables whose entry of ego 1 is replaced. -/
theorem InitializedFunction.value_ego_excluded_witness :
    qualifying sampleNetworkWithoutEgo 1 4 = qualifying sampleNetwork 1 4 ∧
    InitializedFunction.value
        { sampleFunction true true false 1 1 with
          pFirstNetwork := sampleNetworkWithoutEgo
          pSecondNetwork := sampleNetworkWithoutEgo
          lpFirstInStarTable := sampleTableAtEgo
          lpFirstSecondInStarTable := sampleTableAtEgo
          lpSecondFirstInStarTable := sampleTableSuccAtEgo } 4
      = (sampleFunction true true false 1 1).value 4 :=
  ⟨by decide,
   InitializedFunction.value_ego_excluded (sampleFunction true true false 1 1) 4
     sampleNetworkWithoutEgo sampleNetworkWithoutEgo sampleTableAtEgo sampleTableAtEgo
     sampleTableSuccAtEgo (by decide)
     (fun k hk => by
       have hk1 : k ≠ 1 := hk
       simp [sampleTableAtEgo, hk1, sampleFunction])
     (fun k hk => by
       have hk1 : k ≠ 1 := hk
       simp [sampleTableAtEgo, hk1, sampleFunction])
     (fun k hk => by
       have hk1 : k ≠ 1 := hk
       simp [sampleTableSuccAtEgo, hk1, sampleFunction])⟩

/-- C12: no centering in the opposite branch.  With `opposite = true`, the
functions constructed with parameter 1 and 3 (and likewise 2 and 4),
initialized on the same data and base-class part, agree on `lroot`, differ in
`lcenter`, and return the same `value(alter)`; more generally `value(alter)`
of an initialized function with `opposite = true` does not change when
`lcenter` and the centering constant are replaced. -/
theorem MixedThreeCyclesFunction.value_opposite_center
    (sqrtTableInstance : SqrtTable α) (firstNetworkName secondNetworkName : String)
    (type : Int) (sqrt : α → α) (pData : Data α) (b : MixedNetworkAlterFunction)
    (d : NetworkLongitudinalData α) (alter : Int)
    (hdata : pData firstNetworkName = some d) :
    (∃ g1 g3 : InitializedFunction α,
      MixedThreeCyclesFunction.initialize
          (MixedThreeCyclesFunction.new sqrtTableInstance firstNetworkName
            secondNetworkName 1 type true) sqrt pData (.ok b) = .ok g1 ∧
      MixedThreeCyclesFunction.initialize
          (MixedThreeCyclesFunction.new sqrtTableInstance firstNetworkName
            secondNetworkName 3 type true) sqrt pData (.ok b) = .ok g3 ∧
      g1.lroot = false ∧ g3.lroot = false ∧ g1.lcenter = false ∧ g3.lcenter = true ∧
      g1.value alter = g3.value alter) ∧
    (∃ g2 g4 : InitializedFunction α,
      MixedThreeCyclesFunction.initialize
          (MixedThreeCyclesFunction.new sqrtTableInstance firstNetworkName
            secondNetworkName 2 type true) sqrt pData (.ok b) = .ok g2 ∧
      MixedThreeCyclesFunction.initialize
          (MixedThreeCyclesFunction.new sqrtTableInstance firstNetworkName
            secondNetworkName 4 type true) sqrt pData (.ok b) = .ok g4 ∧
      g2.lroot = true ∧ g4.lroot = true ∧ g2.lcenter = false ∧ g4.lcenter = true ∧
      g2.value alter = g4.value alter) ∧
    (∀ (g : InitializedFunction α) (center : Bool) (constant : α),
      g.lopposite = true →
      InitializedFunction.value
          { g with lcenter := center, lavInTwoStar := constant } alter
        = g.value alter) := by
  have hgen : ∀ (g h : InitializedFunction α), g.lopposite = true → h.lopposite = true →
      g.ego = h.ego → g.lroot = h.lroot → g.ltype = h.ltype →
      g.lsqrtTable = h.lsqrtTable → g.pFirstNetwork = h.pFirstNetwork →
      g.lpFirstSecondInStarTable = h.lpFirstSecondInStarTable →
      g.lpSecondFirstInStarTable = h.lpSecondFirstInStarTable →
      g.value alter = h.value alter := by
    intro g h hg hh hego hroot htype hsqrt hnet hfs hsf
    have hloop := InitializedFunction.loopFirstNetwork_congr_of_ne g h hego hroot htype
      hsqrt (fun k _ => by rw [hfs]) (fun k _ => by rw [hsf])
      (g.pFirstNetwork.inTies alter) 0
    simp only [InitializedFunction.value, hg, hh, Bool.not_true, Bool.false_eq_true,
      if_true, if_false]
    rw [hloop, hnet]
  have h12 : ((1 : α) = 2) = False := by norm_num
  have h14 : ((1 : α) = 4) = False := by norm_num
  have h32 : ((3 : α) = 2) = False := by norm_num
  have h34 : ((3 : α) = 4) = False := by norm_num
  have h13 : ((1 : α) ≥ 3) = False := by norm_num
  have h23 : ((2 : α) ≥ 3) = False := by norm_num
  have h43 : ((4 : α) ≥ 3) = True := by norm_num
  refine ⟨⟨_, _,
      MixedThreeCyclesFunction.initialize_ok _ sqrt pData b d hdata,
      MixedThreeCyclesFunction.initialize_ok _ sqrt pData b d hdata, ?_, ?_, ?_, ?_, ?_⟩,
    ⟨_, _,
      MixedThreeCyclesFunction.initialize_ok _ sqrt pData b d hdata,
      MixedThreeCyclesFunction.initialize_ok _ sqrt pData b d hdata, ?_, ?_, ?_, ?_, ?_⟩,
    ?_⟩
  · simp [MixedThreeCyclesFunction.new, h12, h14]
  · simp [MixedThreeCyclesFunction.new, h32, h34]
  · simp [MixedThreeCyclesFunction.new, h13]
  · simp [MixedThreeCyclesFunction.new]
  · exact hgen _ _ rfl rfl rfl
      (by simp [MixedThreeCyclesFunction.new, h12, h14, h32, h34]) rfl rfl rfl rfl rfl
  · simp [MixedThreeCyclesFunction.new]
  · simp [MixedThreeCyclesFunction.new]
  · simp [MixedThreeCyclesFunction.new, h23]
  · simp [MixedThreeCyclesFunction.new, h43]
  · exact hgen _ _ rfl rfl rfl (by simp [MixedThreeCyclesFunction.new]) rfl rfl rfl rfl rfl
  · intro g center constant hg
    exact hgen _ _ hg hg rfl rfl rfl rfl rfl rfl rfl

/-- Witness of C12: parameters 2 and 4 with variant 1 on the sample data and
base-class part. -/
theorem MixedThreeCyclesFunction.value_opposite_center_witness :
    sampleData ℚ "W" = some { averageSquaredInDegree := 8, averageInDegree := 2, m := 7 } ∧
    ∃ g2 g4 : InitializedFunction ℚ,
      MixedThreeCyclesFunction.initialize
          (MixedThreeCyclesFunction.new exactSqrtTable "W" "X" 2 1 true) exactSqrt
          (sampleData ℚ) (.ok sampleBase) = .ok g2 ∧
      MixedThreeCyclesFunction.initialize
          (MixedThreeCyclesFunction.new exactSqrtTable "W" "X" 4 1 true) exactSqrt
          (sampleData ℚ) (.ok sampleBase) = .ok g4 ∧
      g2.lroot = true ∧ g4.lroot = true ∧ g2.lcenter = false ∧ g4.lcenter = true ∧
      g2.value 4 = g4.value 4 :=
  ⟨by simp [sampleData],
   (MixedThreeCyclesFunction.value_opposite_center exactSqrtTable "W" "X" 1 exactSqrt
      (sampleData ℚ) sampleBase
      { averageSquaredInDegree := 8, averageInDegree := 2, m := 7 } 4
      (by simp [sampleData])).2.1⟩

/-- C16: the constructor sets `lroot` exactly when the parameter equals 2 or
4 and `lcenter` exactly when the parameter is at least 3; so parameters 0
and 1 give neither flag, 2 gives root only, 3 centre only, 4 both, and every
parameter above 4 gives centre without root. -/
theorem MixedThreeCyclesFunction.new_flags (sqrtTableInstance : SqrtTable α)
    (firstNetworkName secondNetworkName : String) (type : Int) (opposite : Bool) :
    (∀ parameter : α,
      ((MixedThreeCyclesFunction.new sqrtTableInstance firstNetworkName secondNetworkName
          parameter type opposite).lroot = true ↔ (parameter = 2 ∨ parameter = 4)) ∧
      ((MixedThreeCyclesFunction.new sqrtTableInstance firstNetworkName secondNetworkName
          parameter type opposite).lcenter = true ↔ 3 ≤ parameter)) ∧
    (∀ parameter : α, parameter = 0 ∨ parameter = 1 →
      (MixedThreeCyclesFunction.new sqrtTableInstance firstNetworkName secondNetworkName
          parameter type opposite).lroot = false ∧
      (MixedThreeCyclesFunction.new sqrtTableInstance firstNetworkName secondNetworkName
          parameter type opposite).lcenter = false) ∧
    ((MixedThreeCyclesFunction.new sqrtTableInstance firstNetworkName secondNetworkName
          (2 : α) type opposite).lroot = true ∧
      (MixedThreeCyclesFunction.new sqrtTableInstance firstNetworkName secondNetworkName
          (2 : α) type opposite).lcenter = false) ∧
    ((MixedThreeCyclesFunction.new sqrtTableInstance firstNetworkName secondNetworkName
          (3 : α) type opposite).lroot = false ∧
      (MixedThreeCyclesFunction.new sqrtTableInstance firstNetworkName secondNetworkName
          (3 : α) type opposite).lcenter = true) ∧
    ((MixedThreeCyclesFunction.new sqrtTableInstance firstNetworkName secondNetworkName
          (4 : α) type opposite).lroot = true ∧
      (MixedThreeCyclesFunction.new sqrtTableInstance firstNetworkName secondNetworkName
          (4 : α) type opposite).lcenter = true) ∧
    (∀ parameter : α, 4 < parameter →
      (MixedThreeCyclesFunction.new sqrtTableInstance firstNetworkName secondNetworkName
          parameter type opposite).lroot = false ∧
      (MixedThreeCyclesFunction.new sqrtTableInstance firstNetworkName secondNetworkName
          parameter type opposite).lcenter = true) := by
  refine ⟨?_, ?_, ?_, ?_, ?_, ?_⟩
  · intro parameter
    simp [MixedThreeCyclesFunction.new]
  · rintro parameter (rfl | rfl) <;> norm_num [MixedThreeCyclesFunction.new]
  · norm_num [MixedThreeCyclesFunction.new]
  · norm_num [MixedThreeCyclesFunction.new]
  · norm_num [MixedThreeCyclesFunction.new]
  · intro parameter h
    have h2 : parameter ≠ 2 := by intro h2; rw [h2] at h; norm_num at h
    have h4 : parameter ≠ 4 := ne_of_gt h
    have h3 : (3 : α) ≤ parameter := by linarith
    simp [MixedThreeCyclesFunction.new, h2, h4, h3]

/-- Witness of C16: parameter 5 on `ℚ` gives centre without root. -/
theorem MixedThreeCyclesFunction.new_flags_witness :
    (4 : ℚ) < 5 ∧
    (MixedThreeCyclesFunction.new exactSqrtTable "W" "X" (5 : ℚ) 1 false).lroot = false ∧
    (MixedThreeCyclesFunction.new exactSqrtTable "W" "X" (5 : ℚ) 1 false).lcenter = true :=
  ⟨by norm_num,
   (MixedThreeCyclesFunction.new_flags exactSqrtTable "W" "X" 1 false).2.2.2.2.2 5
     (by norm_num)⟩

/-- C17: empty-sum convention.  For every initialized function (any flags,
variant, tables and centering constant), if no actor other than ego has a
tie to `alter` in the iterated network (the second network without
`opposite`, the first with it), `value(alter)` returns 0. -/
theorem InitializedFunction.value_no_qualifying (f : InitializedFunction α)
    (alter : Int)
    (hnone : qualifying (if f.lopposite then f.pFirstNetwork else f.pSecondNetwork)
      f.ego alter = []) :
    f.value alter = .ok 0 := by
  cases hopp : f.lopposite
  · have h := f.loopSecondNetwork_filter (f.pSecondNetwork.inTies alter) 0
    simp only [hopp, qualifying, Bool.false_eq_true, if_false] at hnone
    rw [hnone] at h
    simp [InitializedFunction.value, hopp, h, InitializedFunction.loopSecondNetwork]
  · have h := f.loopFirstNetwork_filter (f.pFirstNetwork.inTies alter) 0
    simp only [hopp, qualifying, if_true] at hnone
    rw [hnone] at h
    simp [InitializedFunction.value, hopp, h, InitializedFunction.loopFirstNetwork]

/-- Witness of C17: the only sender to actor 4 in the second network is ego
1. -/
theorem InitializedFunction.value_no_qualifying_witness :
    qualifying (if noQualifyingFunction.lopposite then noQualifyingFunction.pFirstNetwork
      else noQualifyingFunction.pSecondNetwork) noQualifyingFunction.ego 4 = [] ∧
    noQualifyingFunction.pSecondNetwork.inTies 4 = [1] ∧
    noQualifyingFunction.value 4 = .ok 0 :=
  ⟨by decide, rfl,
   InitializedFunction.value_no_qualifying noQualifyingFunction 4 (by decide)⟩

/-- Subtracting a constant from every term lowers the sum by the number of
terms times the constant. -/
theorem sum_map_sub_const (l : List Int) (a : Int → α) (c : α) :
    (l.map (fun k => a k - c)).sum = (l.map a).sum - (l.length : α) * c := by
  induction l with
  | nil => simp
  | cons k rest ih =>
    simp only [List.map_cons, List.sum_cons, List.length_cons, ih]
    push_cast
    ring

/-- C18: centering shifts the non-opposite statistic.  For a constructed
function with `opposite = false`, initialized on the same network data with
`m() ≥ 2` and the same base-class part once with `lcenter` set and once with
it cleared (the square-root table returning `r n` on the entries it is asked
for): both keep the `lroot` flag; the uncentred function stores the constant
0 and its `value(alter)` is the sum `v` of `f(firstInStarTable[k])` over the
qualifying actors; the centred function stores the constant
`c = (averageSquaredInDegree - averageInDegree) / (m - 1)`, or its square
root when `lroot` is set, the divisor `m - 1` being non-zero; and the centred
`value(alter)` is `v - n * c`, where `n` is the number of qualifying actors
of the second network. -/
theorem MixedThreeCyclesFunction.value_center_shift (f : MixedThreeCyclesFunction α)
    (sqrt : α → α) (pData : Data α) (b : MixedNetworkAlterFunction)
    (d : NetworkLongitudinalData α) (alter : Int) (r : Int → α)
    (hdata : pData f.lvariableName = some d) (hm : 2 ≤ d.m)
    (hopp : f.lopposite = false)
    (hr : f.lroot = true → ∀ k ∈ qualifying b.pSecondNetwork b.ego alter,
      f.lsqrtTable (b.firstNetworkCacheInStarTable k)
        = .ok (r (b.firstNetworkCacheInStarTable k))) :
    ∃ (centred plain : InitializedFunction α) (v : α),
      MixedThreeCyclesFunction.initialize { f with lcenter := true } sqrt pData (.ok b)
        = .ok centred ∧
      MixedThreeCyclesFunction.initialize { f with lcenter := false } sqrt pData (.ok b)
        = .ok plain ∧
      centred.lroot = f.lroot ∧ plain.lroot = f.lroot ∧
      centred.lcenter = true ∧ plain.lcenter = false ∧
      (d.m : α) - 1 ≠ 0 ∧
      centred.lavInTwoStar
        = (if f.lroot then
            sqrt ((d.averageSquaredInDegree - d.averageInDegree) / ((d.m : α) - 1))
          else (d.averageSquaredInDegree - d.averageInDegree) / ((d.m : α) - 1)) ∧
      plain.lavInTwoStar = 0 ∧
      v = ((qualifying b.pSecondNetwork b.ego alter).map (fun k =>
            if f.lroot then r (b.firstNetworkCacheInStarTable k)
              else ((b.firstNetworkCacheInStarTable k : Int) : α))).sum ∧
      plain.value alter = .ok v ∧
      centred.value alter
        = .ok (v - ((qualifying b.pSecondNetwork b.ego alter).length : α)
            * (if f.lroot then
                sqrt ((d.averageSquaredInDegree - d.averageInDegree) / ((d.m : α) - 1))
              else (d.averageSquaredInDegree - d.averageInDegree) / ((d.m : α) - 1))) := by
  have hdiv : (d.m : α) - 1 ≠ 0 := by
    have h : ((1 : Int) : α) < (d.m : α) := by
      exact_mod_cast (by omega : (1 : Int) < d.m)
    have h1 : (0 : α) < (d.m : α) - 1 := by
      simpa using sub_pos.mpr h
    exact ne_of_gt h1
  refine ⟨_, _,
    ((qualifying b.pSecondNetwork b.ego alter).map (fun k =>
      if f.lroot then r (b.firstNetworkCacheInStarTable k)
        else ((b.firstNetworkCacheInStarTable k : Int) : α))).sum,
    MixedThreeCyclesFunction.initialize_ok { f with lcenter := true } sqrt pData b d hdata,
    MixedThreeCyclesFunction.initialize_ok { f with lcenter := false } sqrt pData b d hdata,
    rfl, rfl, rfl, rfl, hdiv, by simp, by simp, rfl, ?_, ?_⟩
  · have h := InitializedFunction.loopSecondNetwork_eq
      { toMixedThreeCyclesFunction := { f with lcenter := false }
        toMixedNetworkAlterFunction := b
        lpFirstInStarTable := b.firstNetworkCacheInStarTable
        lpFirstSecondInStarTable := b.twoNetworkCacheInStarTable
        lpSecondFirstInStarTable := b.twoNetworkCacheReversedInStarTable
        lavInTwoStar := (0 : α) }
      r (b.pSecondNetwork.inTies alter)
      (fun hroot k hk hne => hr hroot k (by simp [qualifying, hk, hne])) 0
    simp only [InitializedFunction.value, hopp, Bool.not_false, Bool.false_eq_true,
      if_true, if_false] at h ⊢
    rw [h]
    simp [qualifying]
  · have h := InitializedFunction.loopSecondNetwork_eq
      { toMixedThreeCyclesFunction := { f with lcenter := true }
        toMixedNetworkAlterFunction := b
        lpFirstInStarTable := b.firstNetworkCacheInStarTable
        lpFirstSecondInStarTable := b.twoNetworkCacheInStarTable
        lpSecondFirstInStarTable := b.twoNetworkCacheReversedInStarTable
        lavInTwoStar :=
          if f.lroot then
            sqrt ((d.averageSquaredInDegree - d.averageInDegree) / (((d.m - 1 : Int) : α)))
          else (d.averageSquaredInDegree - d.averageInDegree) / (((d.m - 1 : Int) : α)) }
      r (b.pSecondNetwork.inTies alter)
      (fun hroot k hk hne => hr hroot k (by simp [qualifying, hk, hne])) 0
    simp only [InitializedFunction.value, hopp, Bool.not_false, Bool.false_eq_true,
      if_true, if_false] at h ⊢
    rw [h, sum_map_sub_const]
    simp [qualifying]

/-- Witness of C18: parameter 4 with `opposite = false` on the sample data (7
actors, constant `√((8 - 2) / (7 - 1)) = 1`) and base-class part: two
qualifying actors with roots 2 and 3, so `v = 5` and the centred value is
`5 - 2 * 1`. -/
theorem MixedThreeCyclesFunction.value_center_shift_witness :
    (2 : Int) ≤ 7 ∧ sampleNotOpposite.lopposite = false ∧
    ∃ (centred plain : InitializedFunction ℚ) (v : ℚ),
      MixedThreeCyclesFunction.initialize { sampleNotOpposite with lcenter := true }
        exactSqrt (sampleData ℚ) (.ok sampleBase) = .ok centred ∧
      MixedThreeCyclesFunction.initialize { sampleNotOpposite with lcenter := false }
        exactSqrt (sampleData ℚ) (.ok sampleBase) = .ok plain ∧
      centred.lroot = sampleNotOpposite.lroot ∧ plain.lroot = sampleNotOpposite.lroot ∧
      centred.lcenter = true ∧ plain.lcenter = false ∧
      (((7 : Int) : ℚ)) - 1 ≠ 0 ∧
      centred.lavInTwoStar
        = (if sampleNotOpposite.lroot then
            exactSqrt (((8 : ℚ) - 2) / (((7 : Int) : ℚ) - 1))
          else ((8 : ℚ) - 2) / (((7 : Int) : ℚ) - 1)) ∧
      plain.lavInTwoStar = 0 ∧
      v = ((qualifying sampleBase.pSecondNetwork sampleBase.ego 4).map (fun k =>
            if sampleNotOpposite.lroot then
              exactRoot (sampleBase.firstNetworkCacheInStarTable k)
            else ((sampleBase.firstNetworkCacheInStarTable k : Int) : ℚ))).sum ∧
      plain.value 4 = .ok v ∧
      centred.value 4
        = .ok (v - ((qualifying sampleBase.pSecondNetwork sampleBase.ego 4).length : ℚ)
            * (if sampleNotOpposite.lroot then
                exactSqrt (((8 : ℚ) - 2) / (((7 : Int) : ℚ) - 1))
              else ((8 : ℚ) - 2) / (((7 : Int) : ℚ) - 1))) :=
  ⟨by decide, rfl,
   MixedThreeCyclesFunction.value_center_shift sampleNotOpposite exactSqrt
     (sampleData ℚ) sampleBase
     { averageSquaredInDegree := 8, averageInDegree := 2, m := 7 } 4 exactRoot
     (by simp [sampleNotOpposite, MixedThreeCyclesFunction.new, sampleData])
     (by decide)
     rfl
     (by
       intro _ k hk
       have h : k = 2 ∨ k = 3 := by
         simpa [qualifying, sampleBase, sampleNetwork] using hk
       rcases h with rfl | rfl <;> rfl)⟩

/-- C19: with `opposite = true` and a variant that is neither 1 nor 2 (the
constructor stores any `type` unchecked), `value(alter)` returns 0 for every
ego, alter, network, table and square-root table, with and without
`rootTransform`: nothing is added to `statistic`, the square-root table is
never consulted, and no error is raised. -/
theorem InitializedFunction.value_unsupported_variant (f : InitializedFunction α)
    (alter : Int) (hopp : f.lopposite = true) (h1 : f.ltype ≠ 1) (h2 : f.ltype ≠ 2) :
    f.value alter = .ok 0 ∧
    f.addends alter = [] ∧
    (∀ sqrtTable : SqrtTable α,
      InitializedFunction.value { f with lsqrtTable := sqrtTable } alter = .ok 0) ∧
    (∀ (sqrtTableInstance : SqrtTable α) (firstNetworkName secondNetworkName : String)
        (parameter : α) (opposite : Bool),
      (MixedThreeCyclesFunction.new sqrtTableInstance firstNetworkName secondNetworkName
        parameter f.ltype opposite).ltype = f.ltype) := by
  have hgen : ∀ g : InitializedFunction α, g.lopposite = true → g.ltype ≠ 1 →
      g.ltype ≠ 2 → g.value alter = .ok 0 := by
    intro g hg g1 g2
    have h := g.loopFirstNetwork_eq (fun _ => 0) (g.pFirstNetwork.inTies alter)
      (fun _ k _ _ => ⟨fun h => absurd h g2, fun h => absurd h g1⟩) 0
    simp [InitializedFunction.value, hg, h, g1, g2]
  refine ⟨hgen f hopp h1 h2, ?_, fun sqrtTable => hgen _ hopp h1 h2, fun _ _ _ _ _ => rfl⟩
  simp [InitializedFunction.addends, hopp, h1, h2]

/-- Witness of C19: the rooted sample function with `opposite = true` and
variant 3. -/
theorem InitializedFunction.value_unsupported_variant_witness :
    (sampleFunction true false true 3 0).lopposite = true ∧
    (sampleFunction true false true 3 0).ltype ≠ 1 ∧
    (sampleFunction true false true 3 0).ltype ≠ 2 ∧
    (sampleFunction true false true 3 0).value 4 = .ok 0 :=
  ⟨rfl, by decide, by decide,
   (InitializedFunction.value_unsupported_variant (sampleFunction true false true 3 0) 4
     rfl (by decide) (by decide)).1⟩

/-- A call of `SqrtTable::sqrt` on a consistent cache returns what the
computation returns and leaves the cache consistent. -/
theorem SqrtTable.sqrt_consistent {β : Type} (compute : SqrtTable β)
    (memo : Int → Option β) (n : Int)
    (h : ∀ k r, memo k = some r → compute k = .ok r) :
    (SqrtTable.sqrt compute memo n).2 = compute n ∧
    ∀ k r, (SqrtTable.sqrt compute memo n).1 k = some r → compute k = .ok r := by
  unfold SqrtTable.sqrt
  cases hm : memo n with
  | some r => exact ⟨(h n r hm).symm, h⟩
  | none =>
    cases hc : compute n with
    | error e => exact ⟨rfl, h⟩
    | ok r =>
      refine ⟨rfl, ?_⟩
      intro k x hk
      by_cases hkn : k = n
      · subst hkn
        simp only [if_true] at hk
        rw [hc]
        cases hk
        rfl
      · simp only [hkn, if_false] at hk
        exact h k x hk

/-- On a consistent cache the `!lopposite` loop on the world leaves the
function unchanged and the cache consistent, and returns what the loop on
the function returns. -/
theorem MixedThreeCyclesWorld.loopSecondNetwork_spec (l : List Int)
    (w : MixedThreeCyclesWorld α) (statistic : α) (h : w.Consistent) :
    (MixedThreeCyclesWorld.loopSecondNetwork l w statistic).1.function = w.function ∧
    (MixedThreeCyclesWorld.loopSecondNetwork l w statistic).1.Consistent ∧
    (MixedThreeCyclesWorld.loopSecondNetwork l w statistic).2
      = w.function.loopSecondNetwork l statistic := by
  induction l generalizing w statistic with
  | nil => exact ⟨rfl, h, rfl⟩
  | cons k rest ih =>
    by_cases hk : k = w.function.ego
    · simpa [MixedThreeCyclesWorld.loopSecondNetwork, InitializedFunction.loopSecondNetwork,
        hk] using ih w statistic h
    · by_cases hroot : w.function.lroot = true
      · have hs := SqrtTable.sqrt_consistent w.function.lsqrtTable w.sqrtTable
          (w.function.lpFirstInStarTable k) h
        rcases hres : SqrtTable.sqrt w.function.lsqrtTable w.sqrtTable
          (w.function.lpFirstInStarTable k) with ⟨memo, e | r⟩
        · rw [hres] at hs
          simp only [MixedThreeCyclesWorld.loopSecondNetwork,
            InitializedFunction.loopSecondNetwork, hk, hroot, hres, ← hs.1, ne_eq,
            not_false_eq_true, if_true]
          exact ⟨trivial, hs.2, trivial⟩
        · rw [hres] at hs
          have hw : MixedThreeCyclesWorld.Consistent { w with sqrtTable := memo } := hs.2
          simpa [MixedThreeCyclesWorld.loopSecondNetwork,
            InitializedFunction.loopSecondNetwork, hk, hroot, hres, ← hs.1]
            using ih { w with sqrtTable := memo }
              (statistic + (r - w.function.lavInTwoStar)) hw
      · simpa [MixedThreeCyclesWorld.loopSecondNetwork,
          InitializedFunction.loopSecondNetwork, hk, hroot]
          using ih w (statistic + (((w.function.lpFirstInStarTable k : Int) : α)
            - w.function.lavInTwoStar)) h

/-- On a consistent cache the `lopposite` loop on the world leaves the
function unchanged and the cache consistent, and returns what the loop on
the function returns. -/
theorem MixedThreeCyclesWorld.loopFirstNetwork_spec (l : List Int)
    (w : MixedThreeCyclesWorld α) (statistic : α) (h : w.Consistent) :
    (MixedThreeCyclesWorld.loopFirstNetwork l w statistic).1.function = w.function ∧
    (MixedThreeCyclesWorld.loopFirstNetwork l w statistic).1.Consistent ∧
    (MixedThreeCyclesWorld.loopFirstNetwork l w statistic).2
      = w.function.loopFirstNetwork l statistic := by
  induction l generalizing w statistic with
  | nil => exact ⟨rfl, h, rfl⟩
  | cons k rest ih =>
    by_cases hk : k = w.function.ego
    · simpa [MixedThreeCyclesWorld.loopFirstNetwork, InitializedFunction.loopFirstNetwork,
        hk] using ih w statistic h
    · by_cases hroot : w.function.lroot = true
      · by_cases h2 : w.function.ltype = 2
        · have h1 : w.function.ltype ≠ 1 := by omega
          have hs := SqrtTable.sqrt_consistent w.function.lsqrtTable w.sqrtTable
            (w.function.lpFirstSecondInStarTable k) h
          rcases hres : SqrtTable.sqrt w.function.lsqrtTable w.sqrtTable
            (w.function.lpFirstSecondInStarTable k) with ⟨memo, e | r⟩
          · rw [hres] at hs
            simp only [MixedThreeCyclesWorld.loopFirstNetwork,
              InitializedFunction.loopFirstNetwork, hk, hroot, h2, hres, ← hs.1, ne_eq,
              not_false_eq_true, if_true]
            exact ⟨trivial, hs.2, trivial⟩
          · rw [hres] at hs
            have hw : MixedThreeCyclesWorld.Consistent { w with sqrtTable := memo } := hs.2
            simpa [MixedThreeCyclesWorld.loopFirstNetwork,
              InitializedFunction.loopFirstNetwork, hk, hroot, h2, hres, ← hs.1]
              using ih { w with sqrtTable := memo } (statistic + r) hw
        · by_cases h1 : w.function.ltype = 1
          · have hs := SqrtTable.sqrt_consistent w.function.lsqrtTable w.sqrtTable
              (w.function.lpSecondFirstInStarTable k - 1) h
            rcases hres : SqrtTable.sqrt w.function.lsqrtTable w.sqrtTable
              (w.function.lpSecondFirstInStarTable k - 1) with ⟨memo, e | r⟩
            · rw [hres] at hs
              have hworld : MixedThreeCyclesWorld.loopFirstNetwork (k :: rest) w statistic
                  = ({ w with sqrtTable := memo }, .error e) := by
                simp [MixedThreeCyclesWorld.loopFirstNetwork, hk, hroot, h1, hres]
              have hpure : w.function.loopFirstNetwork (k :: rest) statistic = .error e := by
                simp [InitializedFunction.loopFirstNetwork, hk, hroot, h1, ← hs.1]
              rw [hworld, hpure]
              exact ⟨rfl, hs.2, rfl⟩
            · rw [hres] at hs
              have hw : MixedThreeCyclesWorld.Consistent { w with sqrtTable := memo } :=
                hs.2
              simpa [MixedThreeCyclesWorld.loopFirstNetwork,
                InitializedFunction.loopFirstNetwork, hk, hroot, h1, hres, ← hs.1]
                using ih { w with sqrtTable := memo } (statistic + r) hw
          · simpa [MixedThreeCyclesWorld.loopFirstNetwork,
              InitializedFunction.loopFirstNetwork, hk, hroot, h1, h2]
              using ih w statistic h
      · simpa [MixedThreeCyclesWorld.loopFirstNetwork,
          InitializedFunction.loopFirstNetwork, hk, hroot]
          using ih w _ h

/-- On a consistent cache `value(alter)` on the world leaves the function
unchanged and the cache consistent, and returns what `value(alter)` on the
function returns. -/
theorem MixedThreeCyclesWorld.value_spec (w : MixedThreeCyclesWorld α) (alter : Int)
    (h : w.Consistent) :
    (w.value alter).1.function = w.function ∧
    (w.value alter).1.Consistent ∧
    (w.value alter).2 = w.function.value alter := by
  cases hopp : w.function.lopposite
  · obtain ⟨hf, hc, hr⟩ := MixedThreeCyclesWorld.loopSecondNetwork_spec
      (w.function.pSecondNetwork.inTies alter) w 0 h
    rcases hrun : MixedThreeCyclesWorld.loopSecondNetwork
      (w.function.pSecondNetwork.inTies alter) w 0 with ⟨w1, e | x⟩
    · rw [hrun] at hf hc hr
      simp only [MixedThreeCyclesWorld.value, InitializedFunction.value, hopp, hrun, ← hr,
        Bool.not_false, if_true]
      exact ⟨hf, hc, trivial⟩
    · rw [hrun] at hf hc hr
      have hopp1 : w1.function.lopposite = false := by
        have hf1 : w1.function = w.function := hf
        rw [hf1, hopp]
      simp only [MixedThreeCyclesWorld.value, InitializedFunction.value, hopp, hrun, ← hr,
        hopp1, Bool.not_false, Bool.false_eq_true, if_true, if_false]
      exact ⟨hf, hc, trivial⟩
  · obtain ⟨hf, hc, hr⟩ := MixedThreeCyclesWorld.loopFirstNetwork_spec
      (w.function.pFirstNetwork.inTies alter) w 0 h
    simp only [MixedThreeCyclesWorld.value, InitializedFunction.value, hopp, Bool.not_true,
      Bool.false_eq_true, if_true, if_false]
    exact ⟨hf, hc, hr⟩

end MixedThreeCycles

section Lifecycle

variable {α : Type} [LinearOrderedField α] {σ₀ σ₁ σ₂ γ : Type}

/-- C13: `value` is pure within a pre-processing window.  For an
`AbsDiffFunction` whose operands' `value` leaves their state unchanged,
`value(alter)` leaves the whole state unchanged, a second call returns the
same number, and that number is `AbsDiffFunction.value` of the operands'
values.  For a `MixedThreeCyclesFunction` (on a consistent square-root
cache) `value(alter)` leaves the function unchanged, with its flags, table
handles, centering constant, ego, networks and tables, returns what
`InitializedFunction.value` returns, and a second call returns the same
outcome. -/
theorem value_pure (f : AbsDiffFunctionObject α σ₀ σ₁ σ₂ γ)
    (s : AbsDiffFunctionState σ₀ σ₁ σ₂) (w : MixedThreeCyclesWorld α) (alter : Int)
    (hfirst : ∀ a t, (f.lpFirstFunction.onValue a t).1 = t)
    (hsecond : ∀ a t, (f.lpSecondFunction.onValue a t).1 = t)
    (hw : w.Consistent) :
    ((f.value alter s).1 = s ∧
      (f.value alter (f.value alter s).1).2 = (f.value alter s).2 ∧
      (f.value alter s).2
        = (AbsDiffFunction.new
            ⟨fun a => (f.lpFirstFunction.onValue a s.firstFunction).2⟩
            ⟨fun a => (f.lpSecondFunction.onValue a s.secondFunction).2⟩).value alter) ∧
    ((w.value alter).1.function = w.function ∧
      (w.value alter).2 = w.function.value alter ∧
      ((w.value alter).1.value alter).2 = (w.value alter).2) := by
  have hs : (f.value alter s).1 = s := by
    simp only [AbsDiffFunctionObject.value, hfirst, hsecond]
  obtain ⟨hf, hc, hr⟩ := w.value_spec alter hw
  obtain ⟨_, _, hr2⟩ := (w.value alter).1.value_spec alter hc
  refine ⟨⟨hs, by rw [hs], rfl⟩, hf, hr, ?_⟩
  rw [hr2, hf, hr]

/-- Witness of C13: the sample `AbsDiffFunction` over the constants 5 / 2 and
3, and the rooted sample function with an empty square-root cache. -/
theorem value_pure_witness :
    ((sampleAbsDiff false).value 4 sampleStart).1 = sampleStart ∧
    ((sampleAbsDiff false).value 4 sampleStart).2 = 1 / 2 ∧
    (sampleWorld.value 4).1.function = sampleWorld.function ∧
    (sampleWorld.value 4).2 = sampleWorld.function.value 4 ∧
    ((sampleWorld.value 4).1.value 4).2 = (sampleWorld.value 4).2 :=
  ⟨(value_pure (sampleAbsDiff false) sampleStart sampleWorld 4 (fun _ _ => rfl)
      (fun _ _ => rfl) (fun _ _ h => by simp [sampleWorld] at h)).1.1,
   by norm_num [AbsDiffFunctionObject.value, sampleAbsDiff, sampleOperand],
   (value_pure (sampleAbsDiff false) sampleStart sampleWorld 4 (fun _ _ => rfl)
      (fun _ _ => rfl) (fun _ _ h => by simp [sampleWorld] at h)).2⟩

/-- C14: destroying an `AbsDiffFunction` whose operands are two distinct live
objects hands exactly the two operands to `delete`, the first and then the
second, each once; afterwards neither operand is live and every other
object is live exactly if it was before. -/
theorem AbsDiffFunctionPointers.destructor_releases (f : AbsDiffFunctionPointers)
    (store : Finset Nat) (hfirst : f.lpFirstFunction ∈ store)
    (hsecond : f.lpSecondFunction ∈ store) (hnull1 : f.lpFirstFunction ≠ 0)
    (hnull2 : f.lpSecondFunction ≠ 0)
    (hdistinct : f.lpFirstFunction ≠ f.lpSecondFunction) :
    f.destructor store
      = (some ((store.erase f.lpFirstFunction).erase f.lpSecondFunction),
          [f.lpFirstFunction, f.lpSecondFunction]) ∧
    [f.lpFirstFunction, f.lpSecondFunction].count f.lpFirstFunction = 1 ∧
    [f.lpFirstFunction, f.lpSecondFunction].count f.lpSecondFunction = 1 ∧
    f.lpFirstFunction ∉ (store.erase f.lpFirstFunction).erase f.lpSecondFunction ∧
    f.lpSecondFunction ∉ (store.erase f.lpFirstFunction).erase f.lpSecondFunction ∧
    ∀ q, q ≠ f.lpFirstFunction → q ≠ f.lpSecondFunction →
      (q ∈ (store.erase f.lpFirstFunction).erase f.lpSecondFunction ↔ q ∈ store) := by
  have hmem : f.lpSecondFunction ∈ store.erase f.lpFirstFunction :=
    Finset.mem_erase.mpr ⟨fun h => hdistinct h.symm, hsecond⟩
  refine ⟨?_, ?_, ?_, ?_, ?_, ?_⟩
  · simp [AbsDiffFunctionPointers.destructor, delete, hfirst, hnull1, hnull2, hmem]
  · simp [List.count_cons, hdistinct.symm]
  · simp [List.count_cons, hdistinct]
  · simp
  · simp
  · intro q hq1 hq2
    simp [Finset.mem_erase, hq1, hq2]

/-- Witness of C14: operands at the addresses 1 and 2 in a free store holding
the objects 1, 2 and 3; object 3 stays live. -/
theorem AbsDiffFunctionPointers.destructor_releases_witness :
    AbsDiffFunctionPointers.destructor ⟨1, 2⟩ {1, 2, 3} = (some {3}, [1, 2]) :=
  ((AbsDiffFunctionPointers.destructor_releases ⟨1, 2⟩ {1, 2, 3} (by decide) (by decide)
      (by decide) (by decide) (by decide)).1).trans (by decide)

/-- C15: `AbsDiffFunction::initialize` and `AbsDiffFunction::preprocessEgo`
forward to the base class, then to the first operand, then to the second,
once each, with the arguments they received.  When the base-class step and
the first operand succeed, `initialize` makes the three calls and its outcome
is the second operand's; when the first operand raises, the second operand
is not called and keeps its state; `preprocessEgo(ego)` leaves the base-class
part and both operands pre-processed for `ego`. -/
theorem AbsDiffFunctionObject.lifecycle_forwards {β : Type}
    (f : AbsDiffFunctionObject β σ₀ σ₁ σ₂ γ) (args : γ) (ego : Int) (s : AbsDiffFunctionState σ₀ σ₁ σ₂) :
    (∀ s0 s1 s2 outcome,
      f.alterFunction.onInitialize args s.alterFunction = (s0, .ok ()) →
      f.lpFirstFunction.onInitialize args s.firstFunction = (s1, .ok ()) →
      f.lpSecondFunction.onInitialize args s.secondFunction = (s2, outcome) →
      f.initialize args s
        = ({ alterFunction := s0, firstFunction := s1, secondFunction := s2 },
            [Call.initializeAlterFunction args, Call.initializeFirst args,
              Call.initializeSecond args],
            outcome)) ∧
    (∀ s0 s1 e,
      f.alterFunction.onInitialize args s.alterFunction = (s0, .ok ()) →
      f.lpFirstFunction.onInitialize args s.firstFunction = (s1, .error e) →
      f.initialize args s
        = ({ alterFunction := s0, firstFunction := s1,
             secondFunction := s.secondFunction },
            [Call.initializeAlterFunction args, Call.initializeFirst args],
            .error e)) ∧
    f.preprocessEgo ego s
      = ({ alterFunction := f.alterFunction.onPreprocessEgo ego s.alterFunction
           firstFunction := f.lpFirstFunction.onPreprocessEgo ego s.firstFunction
           secondFunction := f.lpSecondFunction.onPreprocessEgo ego s.secondFunction },
          [Call.preprocessEgoAlterFunction ego, Call.preprocessEgoFirst ego,
            Call.preprocessEgoSecond ego]) := by
  refine ⟨?_, ?_, rfl⟩
  · intro s0 s1 s2 outcome h0 h1 h2
    simp [ AbsDiffFunctionObject.initialize, h0, h1, h2]
  · intro s0 s1 e h0 h1
    simp [ AbsDiffFunctionObject.initialize, h0, h1]

/-- Witness of C15: the sample `AbsDiffFunction` whose first operand raises:
the base class and the first operand are called, the second operand is not
and stays uninitialized. -/
theorem AbsDiffFunctionObject.lifecycle_forwards_witness :
    AbsDiffFunctionObject.initialize (sampleAbsDiff true) "W" sampleStart
      = ({ alterFunction := ⟨true, none⟩, firstFunction := ⟨false, none⟩,
           secondFunction := ⟨false, none⟩ },
          [Call.initializeAlterFunction "W", Call.initializeFirst "W"],
          .error (.logic_error ("Network data for " ++ "W" ++ " expected."))) :=
  (AbsDiffFunctionObject.lifecycle_forwards (sampleAbsDiff true) "W" 1 sampleStart).2.1
    ⟨true, none⟩ ⟨false, none⟩ (.logic_error ("Network data for " ++ "W" ++ " expected."))
    rfl rfl

end Lifecycle

end siena
